import Mathlib

/-!
Verification development for the meson build-definition language front end:
a shallow embedding of the lexer, the recursive-descent parser with byte-span
tracking, the comment-attachment pass (mparser.py) and the fixed-style
formatter (ast/formatter.py), together with theorems settling the frozen
claims about them.

Conventions of the embedding:
  - Python strings are `List Char`; machine strings in results are `String`
    (a wrapper over `List Char`), built only through list operations.
  - Python exceptions are the error side of `Except PErr`.
  - The mutable parser object is an explicit `PState` threaded through every
    function; the mutable AST (nodes are updated in place after construction)
    is an arena: `arena : List NodeData`, nodes referenced by index.
  - Recursive-descent functions take a fuel argument, decreased at every
    call; concrete runs use fuel far above the input size.
  - `mlog.warning` calls append the message text to a warning list.
  - The Unicode-name escape form (backslash N followed by a braced name) and
    lone-surrogate code points in hex escapes are abstracted as decode
    failures: resolving them needs the Unicode character database, which is
    outside the repository; no claim depends on them.
-/

set_option maxHeartbeats 4000000
set_option maxRecDepth 8000

/-- Characters written by code point to keep quoting uncluttered. -/
def quoteC : Char := Char.ofNat 39

def backslashC : Char := Char.ofNat 92

def nlC : Char := Char.ofNat 10

def tabC : Char := Char.ofNat 9

/-- Tagged token value: Python `value` field holding None, bool, int or str. -/
inductive TValue where
  | nothing
  | boolV (b : Bool)
  | numV (n : Nat)
  | strV (s : String)
  deriving Repr, DecidableEq

/-- Token: mirrors mparser.Token (tid, filename, line_start, lineno, colno,
bytespan, value). -/
structure Token where
  tid : String
  filename : String
  lineStart : Nat
  lineno : Nat
  colno : Nat
  bytespan : Nat × Nat
  value : TValue
  deriving Repr, DecidableEq

/-- Comment: mirrors mparser.Comment. -/
structure Comment where
  lineStart : Nat
  lineno : Nat
  colno : Nat
  bytespan : Nat × Nat
  text : String
  deriving Repr, DecidableEq

/-- Error taxonomy: ParseException, BlockParseException, MesonException (from
escape decoding), interpreter assertion failures, and fuel exhaustion (an
artifact of the embedding, never reached in the concrete runs below). -/
inductive PErr where
  | parseError (text : String) (line : String) (lineno : Nat) (colno : Nat)
  | blockParseError (text : String) (line : String) (lineno : Nat) (colno : Nat)
      (startLine : String) (startLineno : Nat) (startColno : Nat)
  | mesonError (text : String)
  | assertError
  | fuelError
  deriving Repr, DecidableEq

/-- Count of leading characters satisfying a predicate. -/
def countWhile (p : Char → Bool) : List Char → Nat
  | [] => 0
  | c :: rest => if p c then countWhile p rest + 1 else 0

def isIdStart (c : Char) : Bool :=
  c == '_' || ('a' ≤ c && c ≤ 'z') || ('A' ≤ c && c ≤ 'Z')

def isIdCont (c : Char) : Bool :=
  isIdStart c || ('0' ≤ c && c ≤ '9')

def isDigitC (c : Char) : Bool := '0' ≤ c && c ≤ '9'

def isBinC (c : Char) : Bool := c == '0' || c == '1'

def isOctC (c : Char) : Bool := '0' ≤ c && c ≤ '7'

def isHexC (c : Char) : Bool :=
  isDigitC c || ('a' ≤ c && c ≤ 'f') || ('A' ≤ c && c ≤ 'F')

def hexVal (c : Char) : Nat :=
  if isDigitC c then c.toNat - '0'.toNat
  else if 'a' ≤ c && c ≤ 'f' then c.toNat - 'a'.toNat + 10
  else if 'A' ≤ c && c ≤ 'F' then c.toNat - 'A'.toNat + 10
  else 0

/-- Pattern for a space or tab (the `ignore` entry of the token list). -/
def matchIgnore : List Char → Option Nat
  | c :: _ => if c == ' ' || c == tabC then some 1 else none
  | [] => none

/-- Index of the first occurrence of three consecutive single quotes. -/
def findTripleQuote : List Char → Option Nat
  | [] => none
  | c :: rest =>
    if c == quoteC && rest.take 2 == [quoteC, quoteC] then some 0
    else (findTripleQuote rest).map (· + 1)

/-- Scan the body of a single-line (format) string literal after its opening
quote.  The regex is a quote, then a star of (any char other than quote and
backslash, or backslash followed by any char other than a newline), then a
quote; alternatives are disjoint per position, so the scan is deterministic.
Returns the total length including both quotes. -/
def strScan : List Char → Nat → Option Nat
  | [], _ => none
  | c :: rest, n =>
    if c == quoteC then some (n + 1)
    else if c == backslashC then
      match rest with
      | [] => none
      | d :: rest2 => if d == nlC then none else strScan rest2 (n + 2)
    else strScan rest (n + 1)

/-- Pattern for a single-line string literal. -/
def matchString : List Char → Option Nat
  | c :: rest => if c == quoteC then strScan rest 1 else none
  | [] => none

/-- Pattern for a single-line format-string literal. -/
def matchFString : List Char → Option Nat
  | c :: rest =>
    if c == 'f' then (matchString rest).map (· + 1) else none
  | [] => none

/-- Pattern for a multiline string literal: three quotes, a shortest body,
three quotes. -/
def matchMultilineString (l : List Char) : Option Nat :=
  if l.take 3 == [quoteC, quoteC, quoteC] then
    (findTripleQuote (l.drop 3)).map (fun k => 3 + k + 3)
  else none

/-- Pattern for a multiline format-string literal. -/
def matchMultilineFString : List Char → Option Nat
  | c :: rest =>
    if c == 'f' then (matchMultilineString rest).map (· + 1) else none
  | [] => none

def matchId : List Char → Option Nat
  | c :: rest => if isIdStart c then some (1 + countWhile isIdCont rest) else none
  | [] => none

/-- Number pattern: binary, octal or hex with at least one digit, a bare
zero, or a nonzero decimal; alternatives tried in that order, so `01` or
`0x` match just the `0`. -/
def matchNumber : List Char → Option Nat
  | '0' :: c :: rest =>
    if (c == 'b' || c == 'B') && countWhile isBinC rest > 0 then
      some (2 + countWhile isBinC rest)
    else if (c == 'o' || c == 'O') && countWhile isOctC rest > 0 then
      some (2 + countWhile isOctC rest)
    else if (c == 'x' || c == 'X') && countWhile isHexC rest > 0 then
      some (2 + countWhile isHexC rest)
    else some 1
  | '0' :: [] => some 1
  | c :: rest =>
    if '1' ≤ c && c ≤ '9' then some (1 + countWhile isDigitC rest) else none
  | [] => none

def matchEolCont : List Char → Option Nat
  | c :: d :: _ => if c == backslashC && d == nlC then some 2 else none
  | _ => none

def matchEol : List Char → Option Nat
  | c :: _ => if c == nlC then some 1 else none
  | [] => none

def matchComment : List Char → Option Nat
  | c :: rest =>
    if c == '#' then some (1 + countWhile (fun d => !(d == nlC)) rest) else none
  | [] => none

def matchLit (pat : List Char) (l : List Char) : Option Nat :=
  if l.take pat.length == pat then some pat.length else none

/-- Numeric value of a matched number literal, like Python int(text, base=0). -/
def parseNumber (l : List Char) : Nat :=
  match l with
  | '0' :: c :: rest =>
    if c == 'b' || c == 'B' then rest.foldl (fun a d => a * 2 + (d.toNat - '0'.toNat)) 0
    else if c == 'o' || c == 'O' then rest.foldl (fun a d => a * 8 + (d.toNat - '0'.toNat)) 0
    else if c == 'x' || c == 'X' then rest.foldl (fun a d => a * 16 + hexVal d) 0
    else 0
  | _ => l.foldl (fun a d => a * 10 + (d.toNat - '0'.toNat)) 0

def singleEscMap (c : Char) : Option Char :=
  if c == backslashC then some backslashC
  else if c == quoteC then some quoteC
  else if c == 'a' then some (Char.ofNat 7)
  else if c == 'b' then some (Char.ofNat 8)
  else if c == 'f' then some (Char.ofNat 12)
  else if c == 'n' then some nlC
  else if c == 'r' then some (Char.ofNat 13)
  else if c == 't' then some tabC
  else if c == 'v' then some (Char.ofNat 11)
  else none

def validScalar (n : Nat) : Bool :=
  (n < 0xD800 || (0xDFFF < n && n < 0x110000))

/-- Escape-sequence substitution over a decoded string body, mirroring
ESCAPE_SEQUENCE_SINGLE_RE.sub(decode_match, value): alternatives in order
are 8-digit, 4-digit and 2-digit hex escapes, octal escapes of one to three
digits, Unicode-name escapes, and single-character escapes; text where no
alternative matches is left unchanged.  Errors carry the offending match
text as MesonUnicodeDecodeError does. -/
def decodeEscapesF : Nat → List Char → Except String (List Char)
  | _, [] => .ok []
  | 0, _ => .error ""
  | fuel + 1, c :: rest =>
    if c == backslashC then
      match rest with
      | [] => .ok [c]
      | d :: rest2 =>
        if d == 'U' && (rest2.take 8).length == 8 && (rest2.take 8).all isHexC then
          let n := (rest2.take 8).foldl (fun a e => a * 16 + hexVal e) 0
          if validScalar n then
            (decodeEscapesF fuel (rest2.drop 8)).map (fun t => Char.ofNat n :: t)
          else .error (String.mk (c :: d :: rest2.take 8))
        else if d == 'u' && (rest2.take 4).length == 4 && (rest2.take 4).all isHexC then
          let n := (rest2.take 4).foldl (fun a e => a * 16 + hexVal e) 0
          if validScalar n then
            (decodeEscapesF fuel (rest2.drop 4)).map (fun t => Char.ofNat n :: t)
          else .error (String.mk (c :: d :: rest2.take 4))
        else if d == 'x' && (rest2.take 2).length == 2 && (rest2.take 2).all isHexC then
          let n := (rest2.take 2).foldl (fun a e => a * 16 + hexVal e) 0
          (decodeEscapesF fuel (rest2.drop 2)).map (fun t => Char.ofNat n :: t)
        else if isOctC d then
          let k := min 2 (countWhile isOctC rest2)
          let n := (d :: rest2.take k).foldl (fun a e => a * 8 + (e.toNat - '0'.toNat)) 0
          (decodeEscapesF fuel (rest2.drop k)).map (fun t => Char.ofNat n :: t)
        else if d == 'N' && rest2.take 1 == ['\x7b'] &&
            decide (countWhile (fun e => !(e == '\x7d')) (rest2.drop 1) > 0) &&
            ((rest2.drop (1 + countWhile (fun e => !(e == '\x7d')) (rest2.drop 1))).take 1
              == ['\x7d']) then
          .error (String.mk (c :: d :: rest2.take
            (2 + countWhile (fun e => !(e == '\x7d')) (rest2.drop 1))))
        else
          match singleEscMap d with
          | some e => (decodeEscapesF fuel rest2).map (fun t => e :: t)
          | none => (decodeEscapesF fuel (d :: rest2)).map (fun t => c :: t)
    else
      (decodeEscapesF fuel rest).map (fun t => c :: t)

/-- ESCAPE_SEQUENCE_SINGLE_RE.sub over a string body; every step consumes at
least one character, so fuel equal to the length is always sufficient. -/
def decodeEscapes (l : List Char) : Except String (List Char) :=
  decodeEscapesF l.length l

/-- Lexer state: position bookkeeping, the three nesting counters (Python
ints, so they may go negative), the side list of comments, and the warning
sink. -/
structure LexState where
  code : List Char
  filename : String
  loc : Nat
  lineStart : Nat
  lineno : Nat
  par : Int
  bracket : Int
  curl : Int
  comments : List Comment
  warnings : List String
  deriving Repr, DecidableEq

def initLex (code : String) (filename : String) : LexState :=
  ⟨code.data, filename, 0, 0, 1, 0, 0, 0, [], []⟩

/-- Line of source starting at a given offset, as Lexer.getline: the slice
up to the next newline, or, when there is none, up to (and excluding) the
last character of the file. -/
def getlineAt (code : List Char) (lineStart : Nat) : String :=
  let rest := code.drop lineStart
  match rest.findIdx? (fun c => c == nlC) with
  | some k => String.mk (rest.take k)
  | none => String.mk rest.dropLast

def spaces (n : Nat) : String := String.mk (List.replicate n ' ')

/-- Rendered text of a ParseException, used where the code turns the
exception into a warning. -/
def parseExcText (text line : String) (colno : Nat) : String :=
  text ++ "\n" ++ line ++ "\n" ++ spaces colno ++ "^"

def kwList : List String :=
  ["true", "false", "if", "else", "elif", "endif", "and", "or", "not",
   "foreach", "endforeach", "in", "continue", "break"]

def futureKwList : List String := ["return"]

/-- Result of one iteration of the token loop: a yielded token, a consumed
but unyielded match, or end of input. -/
inductive LexRes where
  | token (t : Token) (s : LexState)
  | skip (s : LexState)
  | eofR
  deriving Repr

def newlineWarnText : String :=
  "Newline character in a string detected, use \x27\x27\x27 (three single quotes) for multiline strings instead.\nThis will become a hard error in a future Meson release."

/-- One iteration of Lexer.lex: try every pattern in the fixed order at the
current position and act on the first match. -/
def lexStep (s : LexState) : Except PErr LexRes :=
  if s.loc ≥ s.code.length then .ok .eofR else
  let rest := s.code.drop s.loc
  let col := s.loc - s.lineStart
  let curline := s.lineno
  let curlineStart := s.lineStart
  match matchIgnore rest with
  | some n => .ok (.skip { s with loc := s.loc + n })
  | none =>
  match matchMultilineFString rest with
  | some n =>
    let text := rest.take n
    let value := (text.drop 4).dropLast.dropLast.dropLast
    let nls := text.countP (fun c => c == nlC)
    let lastLen := countWhile (fun c => !(c == nlC)) text.reverse
    let s' := if nls > 0 then
        { s with loc := s.loc + n, lineno := s.lineno + nls, lineStart := s.loc + n - lastLen }
      else { s with loc := s.loc + n }
    .ok (.token ⟨"multiline_fstring", s.filename, curlineStart, curline, col,
        (s.loc, s.loc + n), .strV (String.mk value)⟩ s')
  | none =>
  match matchFString rest with
  | some n =>
    let text := rest.take n
    let s' := if text.contains nlC then
        { s with loc := s.loc + n, warnings := s.warnings ++ [parseExcText newlineWarnText (getlineAt s.code s.lineStart) col] }
      else { s with loc := s.loc + n }
    match decodeEscapes ((text.drop 2).dropLast) with
    | .error m =>
      .error (.mesonError ("Failed to parse escape sequence: \x27" ++ m ++
        "\x27 in string:\n  " ++ String.mk text))
    | .ok v =>
      .ok (.token ⟨"fstring", s.filename, curlineStart, curline, col,
          (s.loc, s.loc + n), .strV (String.mk v)⟩ s')
  | none =>
  match matchId rest with
  | some n =>
    let text := String.mk (rest.take n)
    let s' := { s with loc := s.loc + n }
    if kwList.contains text then
      .ok (.token ⟨text, s.filename, curlineStart, curline, col,
          (s.loc, s.loc + n), .nothing⟩ s')
    else
      let s'' := if futureKwList.contains text then
          { s' with warnings := s'.warnings ++ ["Identifier \x27" ++ text ++ "\x27 will become a reserved keyword in a future release. Please rename it."] }
        else s'
      .ok (.token ⟨"id", s.filename, curlineStart, curline, col,
          (s.loc, s.loc + n), .strV text⟩ s'')
  | none =>
  match matchNumber rest with
  | some n =>
    .ok (.token ⟨"number", s.filename, curlineStart, curline, col,
        (s.loc, s.loc + n), .numV (parseNumber (rest.take n))⟩
        { s with loc := s.loc + n })
  | none =>
  match matchEolCont rest with
  | some n =>
    .ok (.skip { s with loc := s.loc + n, lineno := s.lineno + 1, lineStart := s.loc + n })
  | none =>
  match matchEol rest with
  | some n =>
    let s' :=
      { s with loc := s.loc + n, lineno := s.lineno + 1, lineStart := s.loc + n }
    if s.par > 0 || s.bracket > 0 || s.curl > 0 then .ok (.skip s')
    else
      .ok (.token ⟨"eol", s.filename, curlineStart, curline, col,
          (s.loc, s.loc + n), .nothing⟩ s')
  | none =>
  match matchMultilineString rest with
  | some n =>
    let text := rest.take n
    let value := (text.drop 3).dropLast.dropLast.dropLast
    let nls := text.countP (fun c => c == nlC)
    let lastLen := countWhile (fun c => !(c == nlC)) text.reverse
    let s' := if nls > 0 then
        { s with loc := s.loc + n, lineno := s.lineno + nls, lineStart := s.loc + n - lastLen }
      else { s with loc := s.loc + n }
    .ok (.token ⟨"string", s.filename, curlineStart, curline, col,
        (s.loc, s.loc + n), .strV (String.mk value)⟩ s')
  | none =>
  match matchComment rest with
  | some n =>
    .ok (.skip { s with loc := s.loc + n, comments := s.comments ++ [⟨curlineStart, curline, col, (s.loc, s.loc + n), String.mk (rest.take n)⟩] })
  | none =>
  match matchLit ['('] rest with
  | some n =>
    .ok (.token ⟨"lparen", s.filename, curlineStart, curline, col,
        (s.loc, s.loc + n), .nothing⟩ { s with loc := s.loc + n, par := s.par + 1 })
  | none =>
  match matchLit [')'] rest with
  | some n =>
    .ok (.token ⟨"rparen", s.filename, curlineStart, curline, col,
        (s.loc, s.loc + n), .nothing⟩ { s with loc := s.loc + n, par := s.par - 1 })
  | none =>
  match matchLit ['['] rest with
  | some n =>
    .ok (.token ⟨"lbracket", s.filename, curlineStart, curline, col,
        (s.loc, s.loc + n), .nothing⟩
        { s with loc := s.loc + n, bracket := s.bracket + 1 })
  | none =>
  match matchLit [']'] rest with
  | some n =>
    .ok (.token ⟨"rbracket", s.filename, curlineStart, curline, col,
        (s.loc, s.loc + n), .nothing⟩
        { s with loc := s.loc + n, bracket := s.bracket - 1 })
  | none =>
  match matchLit ['\x7b'] rest with
  | some n =>
    .ok (.token ⟨"lcurl", s.filename, curlineStart, curline, col,
        (s.loc, s.loc + n), .nothing⟩ { s with loc := s.loc + n, curl := s.curl + 1 })
  | none =>
  match matchLit ['\x7d'] rest with
  | some n =>
    .ok (.token ⟨"rcurl", s.filename, curlineStart, curline, col,
        (s.loc, s.loc + n), .nothing⟩ { s with loc := s.loc + n, curl := s.curl - 1 })
  | none =>
  match matchLit ['"'] rest with
  | some _ =>
    .error (.parseError "Double quotes are not supported. Use single quotes."
      (getlineAt s.code s.lineStart) s.lineno col)
  | none =>
  match matchString rest with
  | some n =>
    let text := rest.take n
    let s' := if text.contains nlC then
        { s with loc := s.loc + n, warnings := s.warnings ++ [parseExcText newlineWarnText (getlineAt s.code s.lineStart) col] }
      else { s with loc := s.loc + n }
    match decodeEscapes ((text.drop 1).dropLast) with
    | .error m =>
      .error (.mesonError ("Failed to parse escape sequence: \x27" ++ m ++
        "\x27 in string:\n  " ++ String.mk text))
    | .ok v =>
      .ok (.token ⟨"string", s.filename, curlineStart, curline, col,
          (s.loc, s.loc + n), .strV (String.mk v)⟩ s')
  | none =>
  match matchLit [','] rest with
  | some n =>
    .ok (.token ⟨"comma", s.filename, curlineStart, curline, col,
        (s.loc, s.loc + n), .nothing⟩ { s with loc := s.loc + n })
  | none =>
  match matchLit ['+', '='] rest with
  | some n =>
    .ok (.token ⟨"plusassign", s.filename, curlineStart, curline, col,
        (s.loc, s.loc + n), .nothing⟩ { s with loc := s.loc + n })
  | none =>
  match matchLit ['.'] rest with
  | some n =>
    .ok (.token ⟨"dot", s.filename, curlineStart, curline, col,
        (s.loc, s.loc + n), .nothing⟩ { s with loc := s.loc + n })
  | none =>
  match matchLit ['+'] rest with
  | some n =>
    .ok (.token ⟨"plus", s.filename, curlineStart, curline, col,
        (s.loc, s.loc + n), .nothing⟩ { s with loc := s.loc + n })
  | none =>
  match matchLit ['-'] rest with
  | some n =>
    .ok (.token ⟨"dash", s.filename, curlineStart, curline, col,
        (s.loc, s.loc + n), .nothing⟩ { s with loc := s.loc + n })
  | none =>
  match matchLit ['*'] rest with
  | some n =>
    .ok (.token ⟨"star", s.filename, curlineStart, curline, col,
        (s.loc, s.loc + n), .nothing⟩ { s with loc := s.loc + n })
  | none =>
  match matchLit ['%'] rest with
  | some n =>
    .ok (.token ⟨"percent", s.filename, curlineStart, curline, col,
        (s.loc, s.loc + n), .nothing⟩ { s with loc := s.loc + n })
  | none =>
  match matchLit ['/'] rest with
  | some n =>
    .ok (.token ⟨"fslash", s.filename, curlineStart, curline, col,
        (s.loc, s.loc + n), .nothing⟩ { s with loc := s.loc + n })
  | none =>
  match matchLit [':'] rest with
  | some n =>
    .ok (.token ⟨"colon", s.filename, curlineStart, curline, col,
        (s.loc, s.loc + n), .nothing⟩ { s with loc := s.loc + n })
  | none =>
  match matchLit ['=', '='] rest with
  | some n =>
    .ok (.token ⟨"equal", s.filename, curlineStart, curline, col,
        (s.loc, s.loc + n), .nothing⟩ { s with loc := s.loc + n })
  | none =>
  match matchLit ['!', '='] rest with
  | some n =>
    .ok (.token ⟨"nequal", s.filename, curlineStart, curline, col,
        (s.loc, s.loc + n), .nothing⟩ { s with loc := s.loc + n })
  | none =>
  match matchLit ['='] rest with
  | some n =>
    .ok (.token ⟨"assign", s.filename, curlineStart, curline, col,
        (s.loc, s.loc + n), .nothing⟩ { s with loc := s.loc + n })
  | none =>
  match matchLit ['<', '='] rest with
  | some n =>
    .ok (.token ⟨"le", s.filename, curlineStart, curline, col,
        (s.loc, s.loc + n), .nothing⟩ { s with loc := s.loc + n })
  | none =>
  match matchLit ['<'] rest with
  | some n =>
    .ok (.token ⟨"lt", s.filename, curlineStart, curline, col,
        (s.loc, s.loc + n), .nothing⟩ { s with loc := s.loc + n })
  | none =>
  match matchLit ['>', '='] rest with
  | some n =>
    .ok (.token ⟨"ge", s.filename, curlineStart, curline, col,
        (s.loc, s.loc + n), .nothing⟩ { s with loc := s.loc + n })
  | none =>
  match matchLit ['>'] rest with
  | some n =>
    .ok (.token ⟨"gt", s.filename, curlineStart, curline, col,
        (s.loc, s.loc + n), .nothing⟩ { s with loc := s.loc + n })
  | none =>
  match matchLit ['?'] rest with
  | some n =>
    .ok (.token ⟨"questionmark", s.filename, curlineStart, curline, col,
        (s.loc, s.loc + n), .nothing⟩ { s with loc := s.loc + n })
  | none =>
    .error (.parseError "lexer" (getlineAt s.code s.lineStart) s.lineno col)

/-- Run lexStep until a token is produced or end of input is reached.  Each
step consumes at least one character, so fuel one above the code length is
always sufficient. -/
def lexNext : Nat → LexState → Except PErr (Option Token × LexState)
  | 0, _ => .error .fuelError
  | fuel + 1, s =>
    match lexStep s with
    | .error e => .error e
    | .ok .eofR => .ok (none, s)
    | .ok (.token t s') => .ok (some t, s')
    | .ok (.skip s') => lexNext fuel s'

/-- AST node variants (mparser node classes).  Children are arena indices;
nodes are mutated in place after construction by the source (span updates,
clause appends, comment attachment), which the arena mirrors. -/
inductive NodeKind where
  | booleanK (b : Bool)
  | idK (s : String)
  | numberK (n : Nat)
  | stringK (s : String)
  | fstringK (s : String)
  | mfstringK (s : String)
  | continueK
  | breakK
  | argumentK (arguments : List Nat) (kwargs : List (Nat × Nat))
      (commas : List Token) (orderError : Bool)
  | arrayK (args : Nat)
  | dictK (args : Nat)
  | emptyK
  | orK (left right : Nat)
  | andK (left right : Nat)
  | comparisonK (ctype : String) (left right : Nat)
  | arithmeticK (operation : String) (left right : Nat)
  | notK (value : Nat)
  | codeBlockK (lines : List Nat)
  | indexK (iobject index : Nat)
  | methodK (name : String) (sourceObject args : Nat)
  | functionK (funcName : String) (args : Nat)
  | assignmentK (varName : String) (value : Nat)
  | plusAssignmentK (varName : String) (value : Nat)
  | foreachK (varnames : List String) (items block : Nat)
  | ifK (condition block : Nat)
  | ifClauseK (ifs : List Nat) (elseblock : Option Nat)
  | parenthesizedK (inner : Nat)
  | uminusK (value : Nat)
  | ternaryK (condition trueblock falseblock : Nat)
  deriving Repr, DecidableEq

/-- Shared node payload of BaseNode: positions, optional byte span, and the
three comment lists. -/
structure NodeData where
  kind : NodeKind
  lineno : Nat
  colno : Nat
  filename : String
  endLineno : Nat
  endColno : Nat
  bytespan : Option (Nat × Nat)
  preComments : List Comment
  comments : List Comment
  postComments : List Comment
  deriving Repr, DecidableEq

def emptyNodeData : NodeData := ⟨.emptyK, 0, 0, "", 0, 0, none, [], [], []⟩

def nodeAt (arena : List NodeData) (i : Nat) : NodeData :=
  (arena.get? i).getD emptyNodeData

def modifyNode (arena : List NodeData) (i : Nat) (f : NodeData → NodeData) :
    List NodeData :=
  arena.set i (f (nodeAt arena i))

/-- Node with explicit start position; end position defaults to start, as
BaseNode.__post_init__ does. -/
def mkAt (lineno colno : Nat) (filename : String) (kind : NodeKind) : NodeData :=
  ⟨kind, lineno, colno, filename, lineno, colno, none, [], [], []⟩

/-- Elementary node from a token: position and byte span of the token. -/
def mkTok (t : Token) (kind : NodeKind) : NodeData :=
  ⟨kind, t.lineno, t.colno, t.filename, t.lineno, t.colno, some t.bytespan, [], [], []⟩

/-- Node with explicit start and end positions (array, dict, function,
parenthesized). -/
def mkFull (lineno colno : Nat) (filename : String) (endLineno endColno : Nat)
    (kind : NodeKind) : NodeData :=
  ⟨kind, lineno, colno, filename, endLineno, endColno, none, [], [], []⟩

def isEmptyK : NodeKind → Bool
  | .emptyK => true
  | _ => false

/-- Parser state: the lexer, the lookahead token, the ternary flag, the
position stack, the node working set (insertion-ordered, as a set of arena
indices) and the arena itself. -/
structure PState where
  lex : LexState
  current : Token
  inTernary : Bool
  stack : List Token
  nodes : List Nat
  arena : List NodeData
  deriving Repr

def newNode (s : PState) (d : NodeData) : Nat × PState :=
  (s.arena.length, { s with arena := s.arena ++ [d] })

/-- Parser.begin: push the lookahead token on the position stack. -/
def beginP (s : PState) : PState := { s with stack := s.current :: s.stack }

/-- Parser.end: pop the stack, set the byte span of the node from the popped
token to the lookahead token, and register the node in the working set.  An
empty stack is an assertion failure. -/
def endP (i : Nat) (s : PState) : Except PErr PState :=
  match s.stack with
  | [] => .error .assertError
  | t :: rest =>
    .ok { s with
          stack := rest
          arena := modifyNode s.arena i
            (fun d => { d with bytespan := some (t.bytespan.1, s.current.bytespan.1) })
          nodes := if s.nodes.contains i then s.nodes else s.nodes ++ [i] }

/-- Token built by Parser.getsym when the stream is exhausted. -/
def eofToken (cur : Token) : Token :=
  ⟨"eof", "", cur.lineStart, cur.lineno,
   cur.colno + (cur.bytespan.2 - cur.bytespan.1), (0, 0), .nothing⟩

def getsym (s : PState) : Except PErr PState :=
  match lexNext (s.lex.code.length + 1) s.lex with
  | .error e => .error e
  | .ok (some t, ls) => .ok { s with lex := ls, current := t }
  | .ok (none, ls) => .ok { s with lex := ls, current := eofToken s.current }

def getlineP (s : PState) : String := getlineAt s.lex.code s.current.lineStart

def accept (tid : String) (s : PState) : Except PErr (Bool × PState) :=
  if s.current.tid == tid then
    match getsym s with
    | .error e => .error e
    | .ok s' => .ok (true, s')
  else .ok (false, s)

def acceptAny (tids : List String) (s : PState) : Except PErr (String × PState) :=
  if tids.contains s.current.tid then
    match getsym s with
    | .error e => .error e
    | .ok s' => .ok (s.current.tid, s')
  else .ok ("", s)

def expect (tid : String) (s : PState) : Except PErr PState :=
  match accept tid s with
  | .error e => .error e
  | .ok (true, s') => .ok s'
  | .ok (false, _) =>
    .error (.parseError ("Expecting " ++ tid ++ " got " ++ s.current.tid ++ ".")
      (getlineP s) s.current.lineno s.current.colno)

def blockExpect (tid : String) (blockStart : Token) (s : PState) :
    Except PErr PState :=
  match accept tid s with
  | .error e => .error e
  | .ok (true, s') => .ok s'
  | .ok (false, _) =>
    .error (.blockParseError ("Expecting " ++ tid ++ " got " ++ s.current.tid ++ ".")
      (getlineP s) s.current.lineno s.current.colno
      (getlineAt s.lex.code blockStart.lineStart) blockStart.lineno blockStart.colno)

def strValOf (t : Token) : String :=
  match t.value with
  | .strV v => v
  | _ => ""

def numValOf (t : Token) : Nat :=
  match t.value with
  | .numV v => v
  | _ => 0

/-- The comparison operator table, in its insertion order. -/
def comparisonMap : List (String × String) :=
  [("equal", "=="), ("nequal", "!="), ("lt", "<"), ("le", "<="),
   ("gt", ">"), ("ge", ">="), ("in", "in"), ("notin", "not in")]

/-- Try accept on each comparison token id in table order. -/
def compAccept : List (String × String) → PState →
    Except PErr (Option (String × PState))
  | [], _ => .ok none
  | (name, sym) :: rest, s =>
    if s.current.tid == name then
      match getsym s with
      | .error e => .error e
      | .ok s' => .ok (some (sym, s'))
    else compAccept rest s

/-- ArgumentNode.append: flag order errors once a keyword argument exists,
drop EmptyNode statements. -/
def appendArg (a sn : Nat) (s : PState) : PState :=
  { s with arena := modifyNode s.arena a (fun d =>
      match d.kind with
      | .argumentK arguments kwargs commas oe =>
        let oe' := if kwargs.length > 0 then true else oe
        let arguments' :=
          if isEmptyK (nodeAt s.arena sn).kind then arguments else arguments ++ [sn]
        { d with kind := .argumentK arguments' kwargs commas oe' }
      | _ => d) }

def appendComma (a : Nat) (t : Token) (s : PState) : PState :=
  { s with arena := modifyNode s.arena a (fun d =>
      match d.kind with
      | .argumentK arguments kwargs commas oe =>
        { d with kind := .argumentK arguments kwargs (commas ++ [t]) oe }
      | _ => d) }

/-- ArgumentNode.set_kwarg: warn (twice) when an IdNode key with the same
name is already present, then record the pair; the dict is keyed by object
identity, so duplicates accumulate. -/
def setKwarg (a name value : Nat) (s : PState) : PState :=
  let nameVal :=
    match (nodeAt s.arena name).kind with
    | .idK v => v
    | _ => ""
  let dup :=
    match (nodeAt s.arena a).kind with
    | .argumentK _ kwargs _ _ =>
      kwargs.any (fun kv =>
        match (nodeAt s.arena kv.1).kind with
        | .idK x => x == nameVal
        | _ => false)
    | _ => false
  let s :=
    if dup then
      { s with lex := { s.lex with warnings := s.lex.warnings ++
          ["Keyword argument \"" ++ nameVal ++ "\" defined multiple times.",
           "This will be an error in future Meson releases."] } }
    else s
  { s with arena := modifyNode s.arena a (fun d =>
      match d.kind with
      | .argumentK arguments kwargs commas oe =>
        { d with kind := .argumentK arguments (kwargs ++ [(name, value)]) commas oe }
      | _ => d) }

/-- ArgumentNode.set_kwarg_no_check. -/
def setKwargNC (a name value : Nat) (s : PState) : PState :=
  { s with arena := modifyNode s.arena a (fun d =>
      match d.kind with
      | .argumentK arguments kwargs commas oe =>
        { d with kind := .argumentK arguments (kwargs ++ [(name, value)]) commas oe }
      | _ => d) }

def appendIf (clause i : Nat) (s : PState) : PState :=
  { s with arena := modifyNode s.arena clause (fun d =>
      match d.kind with
      | .ifClauseK ifs eb => { d with kind := .ifClauseK (ifs ++ [i]) eb }
      | _ => d) }

def setElse (clause eb : Nat) (s : PState) : PState :=
  { s with arena := modifyNode s.arena clause (fun d =>
      match d.kind with
      | .ifClauseK ifs _ => { d with kind := .ifClauseK ifs (some eb) }
      | _ => d) }

def appendLine (block curline : Nat) (s : PState) : PState :=
  { s with arena := modifyNode s.arena block (fun d =>
      match d.kind with
      | .codeBlockK lines => { d with kind := .codeBlockK (lines ++ [curline]) }
      | _ => d) }


/-- Call tags for the grammar functions of the recursive-descent parser,
combined into one fuel-structural function so that concrete runs reduce
definitionally.  Tags carry the extra node-index arguments of the
corresponding Parser methods. -/
inductive PCall where
  | statementC
  | e1C
  | e2C
  | e2tailC (left : Nat)
  | e3C
  | e3tailC (left : Nat)
  | e4C
  | e5C
  | e5addsubC
  | e5addsubTailC (left : Nat)
  | e5muldivC
  | e5muldivTailC (left : Nat)
  | e6C
  | e7C
  | e7tailC (left : Nat)
  | e8C
  | e9C
  | keyValuesC
  | kvTailC (a sn : Nat)
  | argsC
  | argsTailC (a sn : Nat)
  | methodCallC (sourceObject : Nat)
  | indexCallC (sourceObject : Nat)
  | foreachblockC
  | ifblockC
  | elseifblockC (clause : Nat)
  | elseblockC
  | lineC
  | codeblockC
  | cbLoopC (block : Nat)
  deriving Repr

/-- The recursive-descent parser: one function over the call tags, fuel
decreased at every call.  Each tag mirrors the Parser method of the same
name (see the per-case comments); the elseifblock case returns its clause
argument alongside the state. -/
def parseGo : Nat → PCall → PState → Except PErr (Nat × PState)
  | 0, _, _ => .error .fuelError
  | fuel + 1, c, s =>
    match c with
      -- Parser.statement.
    | .statementC =>
      let s := beginP s
      match parseGo fuel .e1C s with
      | .error e => .error e
      | .ok (en, s) =>
        match endP en s with
        | .error er => .error er
        | .ok s => .ok (en, s)

      -- Parser.e1: assignment, plus-assignment and ternary.
    | .e1C =>
      let s := beginP s
      match parseGo fuel .e2C s with
      | .error e => .error e
      | .ok (left, s) =>
        match accept "plusassign" s with
        | .error e => .error e
        | .ok (true, s) =>
          match parseGo fuel .e1C s with
          | .error e => .error e
          | .ok (value, s) =>
            let ld := nodeAt s.arena left
            match ld.kind with
            | .idK v =>
              let (en, s) := newNode s (mkAt ld.lineno ld.colno ld.filename (.plusAssignmentK v value))
              match endP en s with
              | .error er => .error er
              | .ok s => .ok (en, s)
            | _ =>
              .error (.parseError "Plusassignment target must be an id."
                (getlineP s) ld.lineno ld.colno)
        | .ok (false, s) =>
        match accept "assign" s with
        | .error e => .error e
        | .ok (true, s) =>
          match parseGo fuel .e1C s with
          | .error e => .error e
          | .ok (value, s) =>
            let ld := nodeAt s.arena left
            match ld.kind with
            | .idK v =>
              let (fn, s) := newNode s (mkAt ld.lineno ld.colno ld.filename (.assignmentK v value))
              match endP fn s with
              | .error er => .error er
              | .ok s => .ok (fn, s)
            | _ =>
              .error (.parseError "Assignment target must be an id."
                (getlineP s) ld.lineno ld.colno)
        | .ok (false, s) =>
        match accept "questionmark" s with
        | .error e => .error e
        | .ok (true, s) =>
          if s.inTernary then
            .error (.parseError "Nested ternary operators are not allowed."
              (getlineP s) (nodeAt s.arena left).lineno (nodeAt s.arena left).colno)
          else
            let s := { s with inTernary := true }
            match parseGo fuel .e1C s with
            | .error e => .error e
            | .ok (trueblock, s) =>
              match expect "colon" s with
              | .error e => .error e
              | .ok s =>
                match parseGo fuel .e1C s with
                | .error e => .error e
                | .ok (falseblock, s) =>
                  let s := { s with inTernary := false }
                  let ld := nodeAt s.arena left
                  let (g, s) := newNode s (mkAt ld.lineno ld.colno ld.filename (.ternaryK left trueblock falseblock))
                  match endP g s with
                  | .error er => .error er
                  | .ok s => .ok (g, s)
        | .ok (false, s) =>
          match endP left s with
          | .error er => .error er
          | .ok s => .ok (left, s)

      -- Parser.e2: left-folded or-chains.
    | .e2C =>
      let s := beginP s
      match parseGo fuel .e3C s with
      | .error e => .error e
      | .ok (left, s) => parseGo fuel (.e2tailC left) s

      -- The while-loop of Parser.e2.
    | .e2tailC left =>
      match accept "or" s with
      | .error e => .error e
      | .ok (true, s) =>
        if isEmptyK (nodeAt s.arena left).kind then
          .error (.parseError "Invalid or clause."
            (getlineP s) (nodeAt s.arena left).lineno (nodeAt s.arena left).colno)
        else
          match parseGo fuel .e3C s with
          | .error e => .error e
          | .ok (r, s) =>
            let ld := nodeAt s.arena left
            let (x1, s) := newNode s (mkAt ld.lineno ld.colno ld.filename (.orK left r))
            match endP x1 s with
            | .error er => .error er
            | .ok s => parseGo fuel (.e2tailC x1) (beginP s)
      | .ok (false, s) =>
        match endP left s with
        | .error er => .error er
        | .ok s => .ok (left, s)

      -- Parser.e3: left-folded and-chains.
    | .e3C =>
      let s := beginP s
      match parseGo fuel .e4C s with
      | .error e => .error e
      | .ok (left, s) => parseGo fuel (.e3tailC left) s

      -- The while-loop of Parser.e3.
    | .e3tailC left =>
      match accept "and" s with
      | .error e => .error e
      | .ok (true, s) =>
        if isEmptyK (nodeAt s.arena left).kind then
          .error (.parseError "Invalid and clause."
            (getlineP s) (nodeAt s.arena left).lineno (nodeAt s.arena left).colno)
        else
          match parseGo fuel .e4C s with
          | .error e => .error e
          | .ok (r, s) =>
            let ld := nodeAt s.arena left
            let (x1, s) := newNode s (mkAt ld.lineno ld.colno ld.filename (.andK left r))
            match endP x1 s with
            | .error er => .error er
            | .ok s => parseGo fuel (.e3tailC x1) (beginP s)
      | .ok (false, s) =>
        match endP left s with
        | .error er => .error er
        | .ok s => .ok (left, s)

      -- Parser.e4: single, non-chaining comparison; `not in` as two tokens.
    | .e4C =>
      let s := beginP s
      match parseGo fuel .e5C s with
      | .error e => .error e
      | .ok (left, s) =>
        match compAccept comparisonMap s with
        | .error e => .error e
        | .ok (some (sym, s)) =>
          match parseGo fuel .e5C s with
          | .error e => .error e
          | .ok (r, s) =>
            let ld := nodeAt s.arena left
            let (x, s) := newNode s (mkAt ld.lineno ld.colno ld.filename (.comparisonK sym left r))
            match endP x s with
            | .error er => .error er
            | .ok s => .ok (x, s)
        | .ok none =>
          match accept "not" s with
          | .error e => .error e
          | .ok (true, s) =>
            match accept "in" s with
            | .error e => .error e
            | .ok (true, s) =>
              match parseGo fuel .e5C s with
              | .error e => .error e
              | .ok (r, s) =>
                let ld := nodeAt s.arena left
                let (x, s) := newNode s (mkAt ld.lineno ld.colno ld.filename (.comparisonK "notin" left r))
                match endP x s with
                | .error er => .error er
                | .ok s => .ok (x, s)
            | .ok (false, s) =>
              match endP left s with
              | .error er => .error er
              | .ok s => .ok (left, s)
          | .ok (false, s) =>
            match endP left s with
            | .error er => .error er
            | .ok s => .ok (left, s)

      -- Parser.e5.
    | .e5C =>
      parseGo fuel .e5addsubC s

      -- Parser.e5addsub.
    | .e5addsubC =>
      let s := beginP s
      match parseGo fuel .e5muldivC s with
      | .error e => .error e
      | .ok (left, s) => parseGo fuel (.e5addsubTailC left) s

      -- The while-loop of Parser.e5addsub.
    | .e5addsubTailC left =>
      match acceptAny ["plus", "dash"] s with
      | .error e => .error e
      | .ok (op, s) =>
        if op == "" then
          match endP left s with
          | .error er => .error er
          | .ok s => .ok (left, s)
        else
          match parseGo fuel .e5muldivC s with
          | .error e => .error e
          | .ok (r, s) =>
            let opName := if op == "plus" then "add" else "sub"
            let ld := nodeAt s.arena left
            let (x1, s) := newNode s (mkAt ld.lineno ld.colno ld.filename (.arithmeticK opName left r))
            match endP x1 s with
            | .error er => .error er
            | .ok s => parseGo fuel (.e5addsubTailC x1) (beginP s)

      -- Parser.e5muldiv.
    | .e5muldivC =>
      let s := beginP s
      match parseGo fuel .e6C s with
      | .error e => .error e
      | .ok (left, s) => parseGo fuel (.e5muldivTailC left) s

      -- The while-loop of Parser.e5muldiv.
    | .e5muldivTailC left =>
      match acceptAny ["percent", "star", "fslash"] s with
      | .error e => .error e
      | .ok (op, s) =>
        if op == "" then
          match endP left s with
          | .error er => .error er
          | .ok s => .ok (left, s)
        else
          match parseGo fuel .e6C s with
          | .error e => .error e
          | .ok (r, s) =>
            let opName := if op == "percent" then "mod" else if op == "star" then "mul" else "div"
            let ld := nodeAt s.arena left
            let (x1, s) := newNode s (mkAt ld.lineno ld.colno ld.filename (.arithmeticK opName left r))
            match endP x1 s with
            | .error er => .error er
            | .ok s => parseGo fuel (.e5muldivTailC x1) (beginP s)

      -- Parser.e6: unary not and unary minus; the node position token is the
    -- lookahead after the operator was consumed, as in the source.
    | .e6C =>
      let s := beginP s
      match accept "not" s with
      | .error e => .error e
      | .ok (true, s) =>
        let t := s.current
        match parseGo fuel .e7C s with
        | .error e => .error e
        | .ok (v, s) =>
          let (x, s) := newNode s (mkAt t.lineno t.colno t.filename (.notK v))
          match endP x s with
          | .error er => .error er
          | .ok s => .ok (x, s)
      | .ok (false, s) =>
        match accept "dash" s with
        | .error e => .error e
        | .ok (true, s) =>
          let t := s.current
          match parseGo fuel .e7C s with
          | .error e => .error e
          | .ok (v, s) =>
            let (x1, s) := newNode s (mkAt t.lineno t.colno t.filename (.uminusK v))
            match endP x1 s with
            | .error er => .error er
            | .ok s => .ok (x1, s)
        | .ok (false, s) =>
          match parseGo fuel .e7C s with
          | .error e => .error e
          | .ok (x2, s) =>
            match endP x2 s with
            | .error er => .error er
            | .ok s => .ok (x2, s)

      -- Parser.e7: function call on the parsed primary, then chained method
    -- calls and index calls.
    | .e7C =>
      let s := beginP s
      match parseGo fuel .e8C s with
      | .error e => .error e
      | .ok (left, s) =>
        let blockStart := s.current
        match accept "lparen" s with
        | .error e => .error e
        | .ok (true, s) =>
          match parseGo fuel .argsC s with
          | .error e => .error e
          | .ok (a, s) =>
            match blockExpect "rparen" blockStart s with
            | .error e => .error e
            | .ok s =>
              let ld := nodeAt s.arena left
              match ld.kind with
              | .idK v =>
                let (x1, s) := newNode s (mkFull ld.lineno ld.colno ld.filename s.current.lineno s.current.colno (.functionK v a))
                match endP left s with
                | .error er => .error er
                | .ok s => parseGo fuel (.e7tailC x1) (beginP s)
              | _ =>
                .error (.parseError "Function call must be applied to plain id"
                  (getlineP s) ld.lineno ld.colno)
        | .ok (false, s) => parseGo fuel (.e7tailC left) s

      -- The go_again loop of Parser.e7.
    | .e7tailC left =>
      match accept "dot" s with
      | .error e => .error e
      | .ok (bdot, s) =>
        let afterDot : Except PErr (Bool × Nat × PState) :=
          if bdot then
            match parseGo fuel (.methodCallC left) s with
            | .error e => .error e
            | .ok (x2, s) =>
              match endP left s with
              | .error er => .error er
              | .ok s => .ok (true, x2, beginP s)
          else .ok (false, left, s)
        match afterDot with
        | .error e => .error e
        | .ok (goAgain1, left, s) =>
          match accept "lbracket" s with
          | .error e => .error e
          | .ok (blb, s) =>
            let afterLb : Except PErr (Bool × Nat × PState) :=
              if blb then
                match parseGo fuel (.indexCallC left) s with
                | .error e => .error e
                | .ok (x3, s) =>
                  match endP left s with
                  | .error er => .error er
                  | .ok s => .ok (true, x3, beginP s)
              else .ok (false, left, s)
            match afterLb with
            | .error e => .error e
            | .ok (goAgain2, left, s) =>
              if goAgain1 || goAgain2 then parseGo fuel (.e7tailC left) s
              else
                match endP left s with
                | .error er => .error er
                | .ok s => .ok (left, s)

      -- Parser.e8: parenthesized expression, array literal, dict literal, or
    -- atom.
    | .e8C =>
      let s := beginP s
      let blockStart := s.current
      match accept "lparen" s with
      | .error e => .error e
      | .ok (true, s) =>
        match parseGo fuel .statementC s with
        | .error e => .error e
        | .ok (en, s) =>
          match blockExpect "rparen" blockStart s with
          | .error e => .error e
          | .ok s =>
            let (e1n, s) := newNode s (mkFull blockStart.lineno blockStart.colno (nodeAt s.arena en).filename s.current.lineno s.current.colno (.parenthesizedK en))
            match endP e1n s with
            | .error er => .error er
            | .ok s => .ok (e1n, s)
      | .ok (false, s) =>
        match accept "lbracket" s with
        | .error e => .error e
        | .ok (true, s) =>
          match parseGo fuel .argsC s with
          | .error e => .error e
          | .ok (a, s) =>
            match blockExpect "rbracket" blockStart s with
            | .error e => .error e
            | .ok s =>
              let (x1, s) := newNode s (mkFull blockStart.lineno blockStart.colno (nodeAt s.arena a).filename s.current.lineno s.current.colno (.arrayK a))
              match endP x1 s with
              | .error er => .error er
              | .ok s => .ok (x1, s)
        | .ok (false, s) =>
          match accept "lcurl" s with
          | .error e => .error e
          | .ok (true, s) =>
            match parseGo fuel .keyValuesC s with
            | .error e => .error e
            | .ok (kv, s) =>
              match blockExpect "rcurl" blockStart s with
              | .error e => .error e
              | .ok s =>
                let (x2, s) := newNode s (mkFull blockStart.lineno blockStart.colno (nodeAt s.arena kv).filename s.current.lineno s.current.colno (.dictK kv))
                match endP x2 s with
                | .error er => .error er
                | .ok s => .ok (x2, s)
          | .ok (false, s) =>
            match parseGo fuel .e9C s with
            | .error e => .error e
            | .ok (x3, s) =>
              match endP x3 s with
              | .error er => .error er
              | .ok s => .ok (x3, s)

      -- Parser.e9: atoms.
    | .e9C =>
      let s := beginP s
      let t := s.current
      match accept "true" s with
      | .error e => .error e
      | .ok (true, s) =>
        let (x, s) := newNode s (mkTok t (.booleanK true))
        match endP x s with
        | .error er => .error er
        | .ok s => .ok (x, s)
      | .ok (false, s) =>
      match accept "false" s with
      | .error e => .error e
      | .ok (true, s) =>
        let (x, s) := newNode s (mkTok t (.booleanK false))
        match endP x s with
        | .error er => .error er
        | .ok s => .ok (x, s)
      | .ok (false, s) =>
      match accept "id" s with
      | .error e => .error e
      | .ok (true, s) =>
        let (x, s) := newNode s (mkTok t (.idK (strValOf t)))
        match endP x s with
        | .error er => .error er
        | .ok s => .ok (x, s)
      | .ok (false, s) =>
      match accept "number" s with
      | .error e => .error e
      | .ok (true, s) =>
        let (x, s) := newNode s (mkTok t (.numberK (numValOf t)))
        match endP x s with
        | .error er => .error er
        | .ok s => .ok (x, s)
      | .ok (false, s) =>
      match accept "string" s with
      | .error e => .error e
      | .ok (true, s) =>
        let (x, s) := newNode s (mkTok t (.stringK (strValOf t)))
        match endP x s with
        | .error er => .error er
        | .ok s => .ok (x, s)
      | .ok (false, s) =>
      match accept "fstring" s with
      | .error e => .error e
      | .ok (true, s) =>
        let (x, s) := newNode s (mkTok t (.fstringK (strValOf t)))
        match endP x s with
        | .error er => .error er
        | .ok s => .ok (x, s)
      | .ok (false, s) =>
      match accept "multiline_fstring" s with
      | .error e => .error e
      | .ok (true, s) =>
        let (x, s) := newNode s (mkTok t (.mfstringK (strValOf t)))
        match endP x s with
        | .error er => .error er
        | .ok s => .ok (x, s)
      | .ok (false, s) =>
        let (x, s) := newNode s (mkAt s.current.lineno s.current.colno s.current.filename .emptyK)
        match endP x s with
        | .error er => .error er
        | .ok s => .ok (x, s)

      -- Parser.key_values: the dict body.
    | .keyValuesC =>
      let s := beginP s
      match parseGo fuel .statementC s with
      | .error e => .error e
      | .ok (sn, s) =>
        let (a, s) := newNode s (mkAt s.current.lineno s.current.colno s.current.filename (.argumentK [] [] [] false))
        parseGo fuel (.kvTailC a sn) s

      -- The while-loop of Parser.key_values.
    | .kvTailC a sn =>
      if isEmptyK (nodeAt s.arena sn).kind then
        match endP a s with
        | .error er => .error er
        | .ok s => .ok (a, s)
      else
        match accept "colon" s with
        | .error e => .error e
        | .ok (true, s) =>
          match parseGo fuel .statementC s with
          | .error e => .error e
          | .ok (v, s) =>
            let s := setKwargNC a sn v s
            let potential := s.current
            match accept "comma" s with
            | .error e => .error e
            | .ok (false, s) =>
              match endP a s with
              | .error er => .error er
              | .ok s => .ok (a, s)
            | .ok (true, s) =>
              let s := appendComma a potential s
              match parseGo fuel .statementC s with
              | .error e => .error e
              | .ok (sn', s) => parseGo fuel (.kvTailC a sn') s
        | .ok (false, s) =>
          .error (.parseError "Only key:value pairs are valid in dict construction."
            (getlineP s) (nodeAt s.arena sn).lineno (nodeAt s.arena sn).colno)

      -- Parser.args: the shared argument-list body for calls and arrays.
    | .argsC =>
      let s := beginP s
      match parseGo fuel .statementC s with
      | .error e => .error e
      | .ok (sn, s) =>
        let (a, s) := newNode s (mkAt s.current.lineno s.current.colno s.current.filename (.argumentK [] [] [] false))
        parseGo fuel (.argsTailC a sn) s

      -- The while-loop of Parser.args.
    | .argsTailC a sn =>
      if isEmptyK (nodeAt s.arena sn).kind then
        match endP a s with
        | .error er => .error er
        | .ok s => .ok (a, s)
      else
        let potential := s.current
        match accept "comma" s with
        | .error e => .error e
        | .ok (true, s) =>
          let s := appendComma a potential s
          let s := appendArg a sn s
          match parseGo fuel .statementC s with
          | .error e => .error e
          | .ok (sn', s) => parseGo fuel (.argsTailC a sn') s
        | .ok (false, s) =>
          match accept "colon" s with
          | .error e => .error e
          | .ok (true, s) =>
            match (nodeAt s.arena sn).kind with
            | .idK _ =>
              match parseGo fuel .statementC s with
              | .error e => .error e
              | .ok (v, s) =>
                let s := setKwarg a sn v s
                let potential2 := s.current
                match accept "comma" s with
                | .error e => .error e
                | .ok (false, s) =>
                  match endP a s with
                  | .error er => .error er
                  | .ok s => .ok (a, s)
                | .ok (true, s) =>
                  let s := appendComma a potential2 s
                  match parseGo fuel .statementC s with
                  | .error e => .error e
                  | .ok (sn', s) => parseGo fuel (.argsTailC a sn') s
            | _ =>
              .error (.parseError "Dictionary key must be a plain identifier."
                (getlineP s) (nodeAt s.arena sn).lineno (nodeAt s.arena sn).colno)
          | .ok (false, s) =>
            let s := appendArg a sn s
            match endP a s with
            | .error er => .error er
            | .ok s => .ok (a, s)

      -- Parser.method_call.
    | .methodCallC sourceObject =>
      let s := beginP s
      match parseGo fuel .e9C s with
      | .error e => .error e
      | .ok (mn, s) =>
        let md := nodeAt s.arena mn
        match md.kind with
        | .idK v =>
          match expect "lparen" s with
          | .error e => .error e
          | .ok s =>
            match parseGo fuel .argsC s with
            | .error e => .error e
            | .ok (a, s) =>
              match expect "rparen" s with
              | .error e => .error e
              | .ok s =>
                let (method, s) := newNode s (mkAt md.lineno md.colno md.filename (.methodK v sourceObject a))
                match accept "dot" s with
                | .error e => .error e
                | .ok (true, s) =>
                  match parseGo fuel (.methodCallC method) s with
                  | .error e => .error e
                  | .ok (x1, s) =>
                    match endP x1 s with
                    | .error er => .error er
                    | .ok s => .ok (x1, s)
                | .ok (false, s) =>
                  match endP method s with
                  | .error er => .error er
                  | .ok s => .ok (method, s)
        | _ =>
          .error (.parseError "Method name must be plain id"
            (getlineP s) s.current.lineno s.current.colno)

      -- Parser.index_call.
    | .indexCallC sourceObject =>
      let s := beginP s
      match parseGo fuel .statementC s with
      | .error e => .error e
      | .ok (idx, s) =>
        match expect "rbracket" s with
        | .error e => .error e
        | .ok s =>
          let sd := nodeAt s.arena sourceObject
          let (x1, s) := newNode s (mkAt sd.lineno sd.colno sd.filename (.indexK sourceObject idx))
          match endP x1 s with
          | .error er => .error er
          | .ok s => .ok (x1, s)

      -- Parser.foreachblock.
    | .foreachblockC =>
      let s := beginP s
      let t := s.current
      match expect "id" s with
      | .error e => .error e
      | .ok s =>
        let varname := t
        let varnames := [strValOf t]
        match accept "comma" s with
        | .error e => .error e
        | .ok (b, s) =>
          let t2 := s.current
          let afterComma : Except PErr (List String × PState) :=
            if b then
              match expect "id" s with
              | .error e => .error e
              | .ok s => .ok (varnames ++ [strValOf t2], s)
            else .ok (varnames, s)
          match afterComma with
          | .error e => .error e
          | .ok (varnames, s) =>
            match expect "colon" s with
            | .error e => .error e
            | .ok s =>
              match parseGo fuel .statementC s with
              | .error e => .error e
              | .ok (items, s) =>
                match parseGo fuel .codeblockC s with
                | .error e => .error e
                | .ok (block, s) =>
                  let (x1, s) := newNode s (mkAt varname.lineno varname.colno varname.filename (.foreachK varnames items block))
                  match endP x1 s with
                  | .error er => .error er
                  | .ok s => .ok (x1, s)

      -- Parser.ifblock.
    | .ifblockC =>
      let s := beginP s
      match parseGo fuel .statementC s with
      | .error e => .error e
      | .ok (condition, s) =>
        let cd := nodeAt s.arena condition
        let (clause, s) := newNode s (mkAt cd.lineno cd.colno cd.filename (.ifClauseK [] none))
        match expect "eol" s with
        | .error e => .error e
        | .ok s =>
          match parseGo fuel .codeblockC s with
          | .error e => .error e
          | .ok (block, s) =>
            let s := beginP s
            let cld := nodeAt s.arena clause
            let (i, s) := newNode s (mkAt cld.lineno cld.colno cld.filename (.ifK condition block))
            match endP i s with
            | .error er => .error er
            | .ok s =>
              let s := appendIf clause i s
              match parseGo fuel (.elseifblockC clause) s with
              | .error e => .error e
              | .ok (_, s) =>
                match parseGo fuel .elseblockC s with
                | .error e => .error e
                | .ok (eb, s) =>
                  let s := setElse clause eb s
                  match endP clause s with
                  | .error er => .error er
                  | .ok s => .ok (clause, s)

      -- Parser.elseifblock.
    | .elseifblockC clause =>
      match accept "elif" s with
      | .error e => .error e
      | .ok (true, s) =>
        let s := beginP s
        match parseGo fuel .statementC s with
        | .error e => .error e
        | .ok (sc, s) =>
          match expect "eol" s with
          | .error e => .error e
          | .ok s =>
            match parseGo fuel .codeblockC s with
            | .error e => .error e
            | .ok (b, s) =>
              let sd := nodeAt s.arena sc
              let (x1, s) := newNode s (mkAt sd.lineno sd.colno sd.filename (.ifK sc b))
              match endP x1 s with
              | .error er => .error er
              | .ok s => parseGo fuel (.elseifblockC clause) (appendIf clause x1 s)
      | .ok (false, s) => .ok (clause, s)

      -- Parser.elseblock.
    | .elseblockC =>
      match accept "else" s with
      | .error e => .error e
      | .ok (true, s) =>
        match expect "eol" s with
        | .error e => .error e
        | .ok s => parseGo fuel .codeblockC s
      | .ok (false, s) =>
        let s := beginP s
        let (x1, s) := newNode s (mkAt s.current.lineno s.current.colno s.current.filename .emptyK)
        match endP x1 s with
        | .error er => .error er
        | .ok s => .ok (x1, s)

      -- Parser.line.
    | .lineC =>
      let blockStart := s.current
      let s := beginP s
      if s.current.tid == "eol" then
        let (x1, s) := newNode s (mkAt s.current.lineno s.current.colno s.current.filename .emptyK)
        match endP x1 s with
        | .error er => .error er
        | .ok s => .ok (x1, s)
      else
        match accept "if" s with
        | .error e => .error e
        | .ok (true, s) =>
          match parseGo fuel .ifblockC s with
          | .error e => .error e
          | .ok (ifb, s) =>
            match blockExpect "endif" blockStart s with
            | .error e => .error e
            | .ok s =>
              match endP ifb s with
              | .error er => .error er
              | .ok s => .ok (ifb, s)
        | .ok (false, s) =>
        match accept "foreach" s with
        | .error e => .error e
        | .ok (true, s) =>
          match parseGo fuel .foreachblockC s with
          | .error e => .error e
          | .ok (forb, s) =>
            match blockExpect "endforeach" blockStart s with
            | .error e => .error e
            | .ok s =>
              match endP forb s with
              | .error er => .error er
              | .ok s => .ok (forb, s)
        | .ok (false, s) =>
        match accept "continue" s with
        | .error e => .error e
        | .ok (true, s) =>
          let (x2, s) := newNode s (mkTok s.current .continueK)
          match endP x2 s with
          | .error er => .error er
          | .ok s => .ok (x2, s)
        | .ok (false, s) =>
        match accept "break" s with
        | .error e => .error e
        | .ok (true, s) =>
          let (x3, s) := newNode s (mkTok s.current .breakK)
          match endP x3 s with
          | .error er => .error er
          | .ok s => .ok (x3, s)
        | .ok (false, s) =>
          match parseGo fuel .statementC s with
          | .error e => .error e
          | .ok (sn, s) =>
            match endP sn s with
            | .error er => .error er
            | .ok s => .ok (sn, s)

      -- Parser.codeblock.
    | .codeblockC =>
      let s := beginP s
      let (block, s) := newNode s (mkAt s.current.lineno s.current.colno s.current.filename (.codeBlockK []))
      parseGo fuel (.cbLoopC block) s

      -- The while-loop of Parser.codeblock.
    | .cbLoopC block =>
      match parseGo fuel .lineC s with
      | .error e => .error e
      | .ok (curline, s) =>
        let s := if isEmptyK (nodeAt s.arena curline).kind then s
                 else appendLine block curline s
        match accept "eol" s with
        | .error e => .error e
        | .ok (true, s) => parseGo fuel (.cbLoopC block) s
        | .ok (false, s) =>
          match endP block s with
          | .error er => .error er
          | .ok s => .ok (block, s)

/-- Parser.statement. -/
def statementP (fuel : Nat) (s : PState) : Except PErr (Nat × PState) :=
  parseGo fuel .statementC s

/-- Parser.e1. -/
def e1 (fuel : Nat) (s : PState) : Except PErr (Nat × PState) :=
  parseGo fuel .e1C s

/-- Parser.e2. -/
def e2 (fuel : Nat) (s : PState) : Except PErr (Nat × PState) :=
  parseGo fuel .e2C s

/-- Parser.e3. -/
def e3 (fuel : Nat) (s : PState) : Except PErr (Nat × PState) :=
  parseGo fuel .e3C s

/-- Parser.e4. -/
def e4 (fuel : Nat) (s : PState) : Except PErr (Nat × PState) :=
  parseGo fuel .e4C s

/-- Parser.e5. -/
def e5 (fuel : Nat) (s : PState) : Except PErr (Nat × PState) :=
  parseGo fuel .e5C s

/-- Parser.e6. -/
def e6 (fuel : Nat) (s : PState) : Except PErr (Nat × PState) :=
  parseGo fuel .e6C s

/-- Parser.e7. -/
def e7 (fuel : Nat) (s : PState) : Except PErr (Nat × PState) :=
  parseGo fuel .e7C s

/-- Parser.e8. -/
def e8 (fuel : Nat) (s : PState) : Except PErr (Nat × PState) :=
  parseGo fuel .e8C s

/-- Parser.e9. -/
def e9 (fuel : Nat) (s : PState) : Except PErr (Nat × PState) :=
  parseGo fuel .e9C s

/-- Parser.args. -/
def argsP (fuel : Nat) (s : PState) : Except PErr (Nat × PState) :=
  parseGo fuel .argsC s

/-- Parser.key_values. -/
def keyValues (fuel : Nat) (s : PState) : Except PErr (Nat × PState) :=
  parseGo fuel .keyValuesC s

/-- Parser.codeblock. -/
def codeblock (fuel : Nat) (s : PState) : Except PErr (Nat × PState) :=
  parseGo fuel .codeblockC s

/-- Parser.line. -/
def lineP (fuel : Nat) (s : PState) : Except PErr (Nat × PState) :=
  parseGo fuel .lineC s

/-- Parser.__init__: construct the lexer and pull the first token. -/
def initP (code : String) (filename : String) : Except PErr PState :=
  getsym ⟨initLex code filename, ⟨"eof", "", 0, 0, 0, (0, 0), .nothing⟩,
          false, [], [], []⟩

/-- Result of Parser.attach_comment on one comment. -/
inductive AttachRes where
  | dropped
  | inline (n : Nat)
  | leading (n : Nat)
  | trailing (n : Nat)
  | assertFail
  deriving Repr, DecidableEq

/-- The initial value of smallest_distance in Parser.attach_comment. -/
def bigInit : Int := 100000000000

/-- One step of the select-smallest loop shared by the three passes: update
the best candidate whenever the running smallest distance is strictly
larger. -/
def passStep (acc : Int × Option Nat) (nd : Nat × Int) : Int × Option Nat :=
  if acc.1 > nd.2 then (nd.2, some nd.1) else acc

/-- The select-smallest loop shared by the three passes. -/
def passFold (cands : List (Nat × Int)) : Int × Option Nat :=
  cands.foldl passStep (bigInit, none)

/-- Pass 1 candidates: nodes whose span contains the comment start; the
distance is the span width. -/
def pass1Cands (nodes : List (Nat × (Nat × Nat))) (c : Comment) :
    List (Nat × Int) :=
  nodes.filterMap (fun nsp =>
    if nsp.2.1 > c.bytespan.1 then none
    else if nsp.2.2 < c.bytespan.1 then none
    else some (nsp.1, (nsp.2.2 : Int) - (nsp.2.1 : Int)))

/-- Pass 2 candidates: nodes starting at or before the comment start; the
distance is node end minus comment start. -/
def pass2Cands (nodes : List (Nat × (Nat × Nat))) (c : Comment) :
    List (Nat × Int) :=
  nodes.filterMap (fun nsp =>
    if nsp.2.1 > c.bytespan.1 then none
    else some (nsp.1, (nsp.2.2 : Int) - (c.bytespan.1 : Int)))

/-- Pass 3 candidates: the loop skips a node only when the comment end is
strictly before the node start, so it keeps nodes starting at or before the
comment end; the distance is comment end minus node start. -/
def pass3Cands (nodes : List (Nat × (Nat × Nat))) (c : Comment) :
    List (Nat × Int) :=
  nodes.filterMap (fun nsp =>
    if c.bytespan.2 < nsp.2.1 then none
    else some (nsp.1, (c.bytespan.2 : Int) - (nsp.2.1 : Int)))

/-- Parser.attach_comment over an explicit list of (node id, byte span)
pairs: three passes, an empty node set drops the comment, and exhausting
all passes fails the final assertion. -/
def attachCore (nodes : List (Nat × (Nat × Nat))) (c : Comment) : AttachRes :=
  if nodes.length == 0 then .dropped
  else
    match (passFold (pass1Cands nodes c)).2 with
    | some n => .inline n
    | none =>
      match (passFold (pass2Cands nodes c)).2 with
      | some n => .leading n
      | none =>
        match (passFold (pass3Cands nodes c)).2 with
        | some n => .trailing n
        | none => .assertFail

/-- Node working set together with the byte spans recorded in the arena. -/
def nodeSpans (s : PState) : List (Nat × (Nat × Nat)) :=
  s.nodes.map (fun i => (i, ((nodeAt s.arena i).bytespan).getD (0, 0)))

/-- Parser.attach_comment acting on the parser state. -/
def attachComment (c : Comment) (s : PState) : Except PErr PState :=
  match attachCore (nodeSpans s) c with
  | .dropped => .ok s
  | .inline n =>
    .ok { s with arena := modifyNode s.arena n (fun d => { d with comments := d.comments ++ [c] }) }
  | .leading n =>
    .ok { s with arena := modifyNode s.arena n (fun d => { d with preComments := d.preComments ++ [c] }) }
  | .trailing n =>
    .ok { s with arena := modifyNode s.arena n (fun d => { d with postComments := d.postComments ++ [c] }) }
  | .assertFail => .error .assertError

def attachAll : List Comment → PState → Except PErr PState
  | [], s => .ok s
  | c :: rest, s =>
    match attachComment c s with
    | .error e => .error e
    | .ok s' => attachAll rest s'

/-- Parser.parse: parse the code block, expect end of input, assert the
position stack is empty, then attach every lexed comment. -/
def parseP (fuel : Nat) (code : String) (filename : String) :
    Except PErr (Nat × PState) :=
  match initP code filename with
  | .error e => .error e
  | .ok s =>
    match codeblock fuel s with
    | .error e => .error e
    | .ok (block, s) =>
      match expect "eof" s with
      | .error e => .error e
      | .ok s =>
        if s.stack.isEmpty then
          match attachAll s.lex.comments s with
          | .error e => .error e
          | .ok s => .ok (block, s)
        else .error .assertError

/-- Metadata-free skeleton of an AST, for stating structural facts. -/
inductive Shape where
  | boolS (b : Bool)
  | idS (s : String)
  | numS (n : Nat)
  | strS (s : String)
  | fstrS (s : String)
  | mfstrS (s : String)
  | contS
  | brkS
  | argsS (positional : List Shape) (kwargs : List (Shape × Shape))
  | arrS (args : Shape)
  | dictS (args : Shape)
  | emptyS
  | orSh (l r : Shape)
  | andSh (l r : Shape)
  | cmpS (op : String) (l r : Shape)
  | arithS (op : String) (l r : Shape)
  | notSh (v : Shape)
  | blockS (lines : List Shape)
  | idxS (o i : Shape)
  | methS (name : String) (o args : Shape)
  | funcS (name : String) (args : Shape)
  | asgnS (v : String) (e : Shape)
  | plusAsgnS (v : String) (e : Shape)
  | foreachS (vars : List String) (items blk : Shape)
  | ifS (cond blk : Shape)
  | ifClauseS (ifs : List Shape) (els : Option Shape)
  | parenS (inner : Shape)
  | uminusS (v : Shape)
  | ternS (c t f : Shape)
  | badS
  deriving Repr

/-- Result alternatives of the shape extraction: one node, a node list, or
a keyword-argument pair list. -/
inductive ShapeRes where
  | one (s : Shape)
  | many (l : List Shape)
  | pairs (l : List (Shape × Shape))
  deriving Repr

/-- Call tags for the shape extraction. -/
inductive SCall where
  | oneS (i : Nat)
  | listS (l : List Nat)
  | pairsS (l : List (Nat × Nat))
  deriving Repr

/-- Skeleton extraction over the arena, fuel-structural. -/
def shapeGo : Nat → List NodeData → SCall → ShapeRes
  | 0, _, .oneS _ => .one .badS
  | 0, _, .listS _ => .many []
  | 0, _, .pairsS _ => .pairs []
  | fuel + 1, arena, c =>
    match c with
    | .oneS i =>
      let one1 := fun j => match shapeGo fuel arena (.oneS j) with
        | .one sh => sh
        | _ => Shape.badS
      let manyOf := fun l => match shapeGo fuel arena (.listS l) with
        | .many ls => ls
        | _ => []
      let pairsOf := fun l => match shapeGo fuel arena (.pairsS l) with
        | .pairs ls => ls
        | _ => []
      .one (match (nodeAt arena i).kind with
        | .booleanK b => .boolS b
        | .idK v => .idS v
        | .numberK n => .numS n
        | .stringK v => .strS v
        | .fstringK v => .fstrS v
        | .mfstringK v => .mfstrS v
        | .continueK => .contS
        | .breakK => .brkS
        | .argumentK arguments kwargs _ _ => .argsS (manyOf arguments) (pairsOf kwargs)
        | .arrayK a => .arrS (one1 a)
        | .dictK a => .dictS (one1 a)
        | .emptyK => .emptyS
        | .orK l r => .orSh (one1 l) (one1 r)
        | .andK l r => .andSh (one1 l) (one1 r)
        | .comparisonK op l r => .cmpS op (one1 l) (one1 r)
        | .arithmeticK op l r => .arithS op (one1 l) (one1 r)
        | .notK v => .notSh (one1 v)
        | .codeBlockK lines => .blockS (manyOf lines)
        | .indexK o ix => .idxS (one1 o) (one1 ix)
        | .methodK name o a => .methS name (one1 o) (one1 a)
        | .functionK name a => .funcS name (one1 a)
        | .assignmentK v e => .asgnS v (one1 e)
        | .plusAssignmentK v e => .plusAsgnS v (one1 e)
        | .foreachK vars items blk => .foreachS vars (one1 items) (one1 blk)
        | .ifK cond blk => .ifS (one1 cond) (one1 blk)
        | .ifClauseK ifs els => .ifClauseS (manyOf ifs) (els.map one1)
        | .parenthesizedK inner => .parenS (one1 inner)
        | .uminusK v => .uminusS (one1 v)
        | .ternaryK c t f => .ternS (one1 c) (one1 t) (one1 f))
    | .listS l =>
      match l with
      | [] => .many []
      | i :: rest =>
        let sh := match shapeGo fuel arena (.oneS i) with
          | .one sh => sh
          | _ => Shape.badS
        match shapeGo fuel arena (.listS rest) with
        | .many ls => .many (sh :: ls)
        | _ => .many [sh]
    | .pairsS l =>
      match l with
      | [] => .pairs []
      | kv :: rest =>
        let sh1 := match shapeGo fuel arena (.oneS kv.1) with
          | .one sh => sh
          | _ => Shape.badS
        let sh2 := match shapeGo fuel arena (.oneS kv.2) with
          | .one sh => sh
          | _ => Shape.badS
        match shapeGo fuel arena (.pairsS rest) with
        | .pairs ls => .pairs ((sh1, sh2) :: ls)
        | _ => .pairs [(sh1, sh2)]

/-- Skeleton of the node at an arena index. -/
def shapeOf (fuel : Nat) (arena : List NodeData) (i : Nat) : Shape :=
  match shapeGo fuel arena (.oneS i) with
  | .one sh => sh
  | _ => .badS

/-- Formatter state of AstFormatter: emitted lines, the indent unit, the
current indent prefix, and the current line buffer. -/
structure FmtState where
  lines : List String
  indentstr : String
  currindent : String
  currline : String
  deriving Repr, DecidableEq

def initFmt : FmtState := ⟨[], "  ", "", ""⟩

/-- AstFormatter.append. -/
def fmtAppend (t : String) (st : FmtState) : FmtState :=
  { st with currline := st.currline ++ t }

/-- AstFormatter.force_linebreak. -/
def forceLinebreak (st : FmtState) : FmtState :=
  { st with lines := st.lines ++ [st.currline], currline := st.currindent }

def isWS (c : Char) : Bool :=
  c == ' ' || c == tabC || c == nlC || c == Char.ofNat 13 ||
  c == Char.ofNat 11 || c == Char.ofNat 12

/-- Whether Python str.strip() leaves the line empty. -/
def stripIsEmpty (l : String) : Bool := l.data.all isWS

/-- AstFormatter.eventual_linebreak. -/
def eventualLinebreak (st : FmtState) : FmtState :=
  if stripIsEmpty st.currline then st else forceLinebreak st

/-- AstFormatter.escape: translate quote, backslash and newline. -/
def escapeF (v : String) : String :=
  String.mk (v.data.foldr (fun c acc =>
    (if c == quoteC then [backslashC, quoteC]
     else if c == backslashC then [backslashC, backslashC]
     else if c == nlC then [backslashC, 'n'] else [c]) ++ acc) [])

/-- The arithmic_map symbol table of the formatter. -/
def arithmicMap (op : String) : String :=
  if op == "add" then "+"
  else if op == "sub" then "-"
  else if op == "mod" then "%"
  else if op == "mul" then "*"
  else if op == "div" then "/"
  else ""

/-- One trailing ", " stripped from the current line, as the re.sub with an
end-anchored pattern does. -/
def stripTrailingComma (l : String) : String :=
  match l.data.reverse with
  | ' ' :: ',' :: rest => String.mk rest.reverse
  | _ => l

def joinComma : List String → String
  | [] => ""
  | [x] => x
  | x :: rest => x ++ ", " ++ joinComma rest

/-- Call tags for the fixed-style formatter visitor: a single node, the
code-block line loop, the if-clause prefix loop, and the two argument
loops. -/
inductive FCall where
  | oneF (i : Nat)
  | linesF (l : List Nat)
  | ifsF (l : List Nat) (pfx : String)
  | argsF (l : List Nat)
  | kwargsF (l : List (Nat × Nat))
  deriving Repr

/-- BaseNode.accept against AstFormatter, fuel-structural: dispatch on the
dynamic class name; node classes with no matching visit method (EmptyNode,
ParenthesizedNode, MultilineFormatStringNode) fall through with no
action. -/
def fvisitGo : Nat → List NodeData → FCall → FmtState → FmtState
  | 0, _, _, st => st
  | fuel + 1, arena, c, st =>
    match c with
    | .oneF i =>
      match (nodeAt arena i).kind with
      | .booleanK b => fmtAppend (if b then "true" else "false") st
      | .idK v => fmtAppend v st
      | .numberK n => fmtAppend (toString n) st
      | .stringK v => fmtAppend ("\x27" ++ escapeF v ++ "\x27") st
      | .fstringK v => fmtAppend ("f\x27" ++ v ++ "\x27") st
      | .continueK => forceLinebreak (fmtAppend "continue" (forceLinebreak st))
      | .breakK => forceLinebreak (fmtAppend "break" (forceLinebreak st))
      | .arrayK a => fmtAppend "]" (fvisitGo fuel arena (.oneF a) (fmtAppend "[" st))
      | .dictK a => fmtAppend "\x7d" (fvisitGo fuel arena (.oneF a) (fmtAppend "\x7b" st))
      | .orK l r =>
        fvisitGo fuel arena (.oneF r) (fmtAppend " or " (fvisitGo fuel arena (.oneF l) st))
      | .andK l r =>
        fvisitGo fuel arena (.oneF r) (fmtAppend " and " (fvisitGo fuel arena (.oneF l) st))
      | .comparisonK op l r =>
        fvisitGo fuel arena (.oneF r) (fmtAppend (" " ++ op ++ " ") (fvisitGo fuel arena (.oneF l) st))
      | .arithmeticK op l r =>
        fvisitGo fuel arena (.oneF r) (fmtAppend (" " ++ arithmicMap op ++ " ") (fvisitGo fuel arena (.oneF l) st))
      | .notK v => fvisitGo fuel arena (.oneF v) (fmtAppend " not " st)
      | .codeBlockK lines => fvisitGo fuel arena (.linesF lines) st
      | .indexK o ix =>
        fmtAppend "]" (fvisitGo fuel arena (.oneF ix) (fmtAppend "[" (fvisitGo fuel arena (.oneF o) st)))
      | .methodK name o a =>
        fmtAppend ")" (fvisitGo fuel arena (.oneF a) (fmtAppend ("." ++ name ++ "(") (fvisitGo fuel arena (.oneF o) st)))
      | .functionK name a =>
        fmtAppend ")" (fvisitGo fuel arena (.oneF a) (fmtAppend (name ++ "(") st))
      | .assignmentK v e => fvisitGo fuel arena (.oneF e) (fmtAppend (v ++ " = ") st)
      | .plusAssignmentK v e => fvisitGo fuel arena (.oneF e) (fmtAppend (v ++ " += ") st)
      | .foreachK vars items blk =>
        let st := eventualLinebreak st
        let st := fmtAppend "foreach " st
        let st := fmtAppend (joinComma vars) st
        let st := fmtAppend " : " st
        let st := fvisitGo fuel arena (.oneF items) st
        let st := { st with indentstr := st.indentstr ++ " " }
        let st := forceLinebreak st
        let st := fvisitGo fuel arena (.oneF blk) st
        let st := { st with indentstr := String.mk st.indentstr.data.dropLast }
        let st := forceLinebreak st
        let st := fmtAppend "endforeach" st
        forceLinebreak st
      | .ifClauseK ifs els =>
        let st := fvisitGo fuel arena (.ifsF ifs "") st
        let st :=
          match els with
          | some ebn =>
            if isEmptyK (nodeAt arena ebn).kind then st
            else fvisitGo fuel arena (.oneF ebn) (fmtAppend "else" st)
          | none => st
        fmtAppend "endif" st
      | .uminusK v => fvisitGo fuel arena (.oneF v) (fmtAppend "-" st)
      | .ifK cond blk =>
        fvisitGo fuel arena (.oneF blk) (forceLinebreak (fvisitGo fuel arena (.oneF cond) st))
      | .ternaryK c t f =>
        fvisitGo fuel arena (.oneF f) (fmtAppend " : " (fvisitGo fuel arena (.oneF t) (fmtAppend " ? " (fvisitGo fuel arena (.oneF c) st))))
      | .argumentK arguments kwargs _ _ =>
        let st := fvisitGo fuel arena (.argsF arguments) st
        let st := fvisitGo fuel arena (.kwargsF kwargs) st
        { st with currline := stripTrailingComma st.currline }
      | .mfstringK _ => st
      | .parenthesizedK _ => st
      | .emptyK => st
    | .linesF l =>
      match l with
      | [] => st
      | i :: rest =>
        fvisitGo fuel arena (.linesF rest) (forceLinebreak (fvisitGo fuel arena (.oneF i) st))
    | .ifsF l pfx =>
      match l with
      | [] => st
      | i :: rest =>
        fvisitGo fuel arena (.ifsF rest "el") (fvisitGo fuel arena (.oneF i) (fmtAppend (pfx ++ "if ") st))
    | .argsF l =>
      match l with
      | [] => st
      | i :: rest =>
        fvisitGo fuel arena (.argsF rest) (fmtAppend ", " (fvisitGo fuel arena (.oneF i) st))
    | .kwargsF l =>
      match l with
      | [] => st
      | kv :: rest =>
        fvisitGo fuel arena (.kwargsF rest)
          (fmtAppend ", " (fvisitGo fuel arena (.oneF kv.2) (fmtAppend " : " (fvisitGo fuel arena (.oneF kv.1) st))))

/-- Visit of one node. -/
def fvisit (fuel : Nat) (arena : List NodeData) (i : Nat) (st : FmtState) : FmtState :=
  fvisitGo fuel arena (.oneF i) st

/-- AstFormatter.end: flush the buffer into the line list. -/
def fmtEnd (st : FmtState) : List String := st.lines ++ [st.currline]

/-- The mfmt.run pipeline on one source text: parse, format with the
fixed-style formatter, flush; the parse or a failed attach assertion yields
no output. -/
def formatRun (fuel : Nat) (code : String) : Option (List String) :=
  match parseP fuel code "test" with
  | .error _ => none
  | .ok (root, s) => some (fmtEnd (fvisit fuel s.arena root initFmt))

/-- Text of an emitted line sequence: each line is printed followed by a
newline, as the driver does. -/
def unlines (ls : List String) : String :=
  String.join (ls.map (fun l => l ++ "\n"))

/-- Skeleton of the parse result. -/
def parseShape (fuel : Nat) (code : String) : Option Shape :=
  match parseP fuel code "test" with
  | .error _ => none
  | .ok (root, s) => some (shapeOf fuel s.arena root)

/-- Byte span recorded for one arena node after a parse. -/
def spanAt (fuel : Nat) (code : String) (i : Nat) : Option (Nat × Nat) :=
  match parseP fuel code "test" with
  | .error _ => none
  | .ok (_, s) => (nodeAt s.arena i).bytespan

/-- Kind recorded for one arena node after a parse. -/
def kindAt (fuel : Nat) (code : String) (i : Nat) : Option NodeKind :=
  match parseP fuel code "test" with
  | .error _ => none
  | .ok (_, s) => some (nodeAt s.arena i).kind

/-- Lines of the root code block after a parse, as arena indices. -/
def rootLines (fuel : Nat) (code : String) : Option (List Nat) :=
  match parseP fuel code "test" with
  | .error _ => none
  | .ok (root, s) =>
    match (nodeAt s.arena root).kind with
    | .codeBlockK lines => some lines
    | _ => none

/-- Warning messages accumulated during a parse. -/
def warningsOf (fuel : Nat) (code : String) : Option (List String) :=
  match parseP fuel code "test" with
  | .error _ => none
  | .ok (_, s) => some s.lex.warnings

/-! Helper lemmas about state preservation and the select-smallest loop. -/

lemma getsym_inTernary (s s' : PState) (h : getsym s = .ok s') :
    s'.inTernary = s.inTernary := by
  unfold getsym at h
  cases hl : lexNext (s.lex.code.length + 1) s.lex <;> rw [hl] at h
  · cases h
  · rename_i p
    obtain ⟨ot, ls⟩ := p
    cases ot <;> simp only [] at h <;> cases h <;> rfl

lemma attachComment_stack (c : Comment) (s s' : PState)
    (h : attachComment c s = .ok s') : s'.stack = s.stack := by
  unfold attachComment at h
  cases hres : attachCore (nodeSpans s) c <;> rw [hres] at h <;> cases h <;> rfl

lemma attachAll_stack (cs : List Comment) : ∀ s s' : PState,
    attachAll cs s = .ok s' → s'.stack = s.stack := by
  induction cs with
  | nil => intro s s' h; cases h; rfl
  | cons c rest ih =>
    intro s s' h
    unfold attachAll at h
    cases hac : attachComment c s <;> rw [hac] at h
    · cases h
    · exact (ih _ _ h).trans (attachComment_stack c _ _ hac)

lemma passStep_min (cands : List (Nat × Int)) : ∀ acc : Int × Option Nat,
    (List.foldl passStep acc cands = acc ∧ ∀ p ∈ cands, acc.1 ≤ p.2) ∨
    (∃ d m, List.foldl passStep acc cands = (d, some m) ∧ (m, d) ∈ cands ∧
      d < acc.1 ∧ ∀ p ∈ cands, d ≤ p.2) := by
  induction cands with
  | nil => intro acc; left; exact ⟨rfl, by simp⟩
  | cons p ps ih =>
    intro acc
    rw [List.foldl_cons]
    by_cases hcmp : acc.1 > p.2
    · have hstep : passStep acc p = (p.2, some p.1) := by simp [passStep, hcmp]
      rw [hstep]
      rcases ih (p.2, some p.1) with ⟨heq, hall⟩ | ⟨d, m, heq, hmem, hlt, hall⟩
      · right
        refine ⟨p.2, p.1, heq, List.mem_cons_self _ _, hcmp, ?_⟩
        intro q hq
        rcases List.mem_cons.mp hq with h | h
        · rw [h]
        · exact hall q h
      · right
        refine ⟨d, m, heq, List.mem_cons_of_mem _ hmem, lt_trans hlt hcmp, ?_⟩
        intro q hq
        rcases List.mem_cons.mp hq with h | h
        · rw [h]; exact le_of_lt hlt
        · exact hall q h
    · have hstep : passStep acc p = acc := by simp [passStep, hcmp]
      rw [hstep]
      rcases ih acc with ⟨heq, hall⟩ | ⟨d, m, heq, hmem, hlt, hall⟩
      · left
        refine ⟨heq, ?_⟩
        intro q hq
        rcases List.mem_cons.mp hq with h | h
        · rw [h]; exact le_of_not_lt hcmp
        · exact hall q h
      · right
        refine ⟨d, m, heq, List.mem_cons_of_mem _ hmem, hlt, ?_⟩
        intro q hq
        rcases List.mem_cons.mp hq with h | h
        · rw [h]; exact le_of_lt (lt_of_lt_of_le hlt (le_of_not_lt hcmp))
        · exact hall q h

lemma passFold_some (cands : List (Nat × Int)) (m : Nat)
    (h : (passFold cands).2 = some m) :
    ∃ d, (m, d) ∈ cands ∧ ∀ p ∈ cands, d ≤ p.2 := by
  unfold passFold at h
  rcases passStep_min cands (bigInit, none) with ⟨heq, _⟩ | ⟨d, m', heq, hmem, _, hall⟩
  · rw [heq] at h; cases h
  · rw [heq] at h
    simp only [] at h
    cases h
    exact ⟨d, hmem, hall⟩

lemma passFold_none (cands : List (Nat × Int))
    (h : (passFold cands).2 = none) (hb : ∀ p ∈ cands, p.2 < bigInit) :
    cands = [] := by
  rcases passStep_min cands (bigInit, none) with ⟨heq, hall⟩ | ⟨d, m, heq, _, _, _⟩
  · cases cands with
    | nil => rfl
    | cons p ps =>
      exact absurd (hall p (List.mem_cons_self _ _))
        (not_le.mpr (hb p (List.mem_cons_self _ _)))
  · unfold passFold at h
    rw [heq] at h
    cases h

/-- Claim C9: for every input on which the top-level parse completes
without raising an error, the position-tracking stack (pushed by every
rule begin, popped by end) is empty when parse returns; the assert in
Parser.parse, modeled as a fatal error, makes returning with a non-empty
stack impossible, so the parse fails loudly instead. -/
theorem C9_stack_empty (fuel : Nat) (code filename : String) (root : Nat)
    (st : PState) (h : parseP fuel code filename = .ok (root, st)) :
    st.stack = [] := by
  unfold parseP at h
  cases h0 : initP code filename <;> rw [h0] at h <;> dsimp only [] at h
  · cases h
  rename_i s
  cases h1 : codeblock fuel s <;> rw [h1] at h <;> dsimp only [] at h
  · cases h
  rename_i bs
  obtain ⟨block, s1⟩ := bs
  dsimp only [] at h
  cases h2 : expect "eof" s1 <;> rw [h2] at h <;> dsimp only [] at h
  · cases h
  rename_i s2
  by_cases he : s2.stack.isEmpty
  · rw [if_pos he] at h
    cases h3 : attachAll s2.lex.comments s2 <;> rw [h3] at h <;> dsimp only [] at h
    · cases h
    rename_i s3
    cases h
    rw [attachAll_stack _ _ _ h3]
    exact List.isEmpty_iff.mp he
  · rw [if_neg he] at h
    cases h

/-- Witness for C9: a concrete successful parse returning with an empty
stack. -/
theorem C9_stack_empty_witness :
    ∃ st : PState, parseP 40 "x = 1" "test" = .ok (0, st) ∧ st.stack = [] :=
  ⟨_, rfl, C9_stack_empty 40 "x = 1" "test" 0 _ rfl⟩

/-- Pass-3 candidate set worded as claim C2 states it (for comparison with
the source-derived pass3Cands): nodes whose span starts at or after the
comment end, with distance comment end minus node start. -/
def spec3Cands (nodes : List (Nat × (Nat × Nat))) (c : Comment) :
    List (Nat × Int) :=
  nodes.filterMap (fun nsp =>
    if nsp.2.1 ≥ c.bytespan.2 then
      some (nsp.1, (c.bytespan.2 : Int) - (nsp.2.1 : Int))
    else none)

/-- Concrete node set for the C2 counterexample: node 1 spans bytes 2 to 9,
node 2 spans bytes 6 to 9. -/
def c2nodes : List (Nat × (Nat × Nat)) := [(1, (2, 9)), (2, (6, 9))]

/-- Concrete comment for the C2 counterexample: bytes 0 to 4. -/
def c2comment : Comment := ⟨0, 1, 0, (0, 4), "# x"⟩

/-- Counterexample to claim C2.  Passes 1 and 2 find nothing here, so the
third pass runs; it attaches the comment as a trailing comment of node 1,
whose span starts at byte 2, strictly before the comment end 4 — yet the
claim admits exactly the nodes whose span starts at or after the comment
end, which here is only node 2.  So the code chooses a node the claim
excludes. -/
theorem C2_counterexample :
    (passFold (pass1Cands c2nodes c2comment)).2 = none ∧
    (passFold (pass2Cands c2nodes c2comment)).2 = none ∧
    attachCore c2nodes c2comment = .trailing 1 ∧
    ¬((2 : Nat) ≥ 4) ∧
    spec3Cands c2nodes c2comment = [(2, -2)] := by
  refine ⟨rfl, rfl, rfl, by decide, rfl⟩

/-- Claim C2 as amended: when the third pass is reached (every node starts
strictly after the comment start, so passes 1 and 2 find nothing), the
comment is attached as a trailing comment of a node chosen among exactly
those nodes whose span starts at or BEFORE the comment end, minimizing
comment end minus node start; if no node starts at or before the comment
end, the attacher fails its final assertion.  The bound hypothesis reflects
the initial smallest_distance of 10^11 in the code. -/
theorem C2_pass3_amended (nodes : List (Nat × (Nat × Nat))) (c : Comment)
    (hne : nodes ≠ [])
    (h2 : ∀ p ∈ nodes, c.bytespan.1 < p.2.1)
    (hb : (c.bytespan.2 : Int) < bigInit) :
    (attachCore nodes c = .assertFail ∧ ∀ p ∈ nodes, c.bytespan.2 < p.2.1) ∨
    (∃ m sp, attachCore nodes c = .trailing m ∧ (m, sp) ∈ nodes ∧
      sp.1 ≤ c.bytespan.2 ∧
      ∀ p ∈ nodes, p.2.1 ≤ c.bytespan.2 →
        (c.bytespan.2 : Int) - (sp.1 : Int) ≤ (c.bytespan.2 : Int) - (p.2.1 : Int)) := by
  have hlen : (nodes.length == 0) = false := by
    cases nodes with
    | nil => exact absurd rfl hne
    | cons a l => rfl
  have hp1 : pass1Cands nodes c = [] := by
    refine List.filterMap_eq_nil_iff.mpr ?_
    intro p hp
    simp only [if_pos (h2 p hp)]
  have hp2 : pass2Cands nodes c = [] := by
    refine List.filterMap_eq_nil_iff.mpr ?_
    intro p hp
    simp only [if_pos (h2 p hp)]
  cases h3 : (passFold (pass3Cands nodes c)).2 with
  | none =>
    left
    have hb3 : ∀ p ∈ pass3Cands nodes c, p.2 < bigInit := by
      intro p hp
      rcases List.mem_filterMap.mp hp with ⟨nsp, _, hf⟩
      by_cases hc : c.bytespan.2 < nsp.2.1
      · rw [if_pos hc] at hf; cases hf
      · rw [if_neg hc] at hf
        cases hf
        have : (0 : Int) ≤ (nsp.2.1 : Int) := Int.ofNat_nonneg _
        omega
    have hemp := passFold_none _ h3 hb3
    constructor
    · unfold attachCore
      rw [hlen]
      simp only [Bool.false_eq_true, if_false, hp1, hp2, hemp]
      rfl
    · intro p hp
      by_contra hc
      have hmem : (p.1, (c.bytespan.2 : Int) - (p.2.1 : Int)) ∈ pass3Cands nodes c := by
        refine List.mem_filterMap.mpr ⟨p, hp, ?_⟩
        rw [if_neg hc]
      rw [hemp] at hmem
      cases hmem
  | some m =>
    right
    rcases passFold_some _ m h3 with ⟨d, hmem, hmin⟩
    rcases List.mem_filterMap.mp hmem with ⟨nsp, hnsp, hf⟩
    by_cases hc : c.bytespan.2 < nsp.2.1
    · rw [if_pos hc] at hf; cases hf
    · rw [if_neg hc] at hf
      injection hf with hf1
      have h1 : nsp.1 = m := congrArg Prod.fst hf1
      have hd : (c.bytespan.2 : Int) - (nsp.2.1 : Int) = d := congrArg Prod.snd hf1
      refine ⟨m, nsp.2, ?_, ?_, not_lt.mp hc, ?_⟩
      · unfold attachCore
        rw [hlen]
        simp only [Bool.false_eq_true, if_false, hp1, hp2]
        rw [h3]
        rfl
      · cases h1
        exact hnsp
      · intro p hp hple
        have hmemp : (p.1, (c.bytespan.2 : Int) - (p.2.1 : Int)) ∈ pass3Cands nodes c := by
          refine List.mem_filterMap.mpr ⟨p, hp, ?_⟩
          rw [if_neg (not_lt.mpr hple)]
        have := hmin _ hmemp
        rw [← hd] at this
        exact this

/-- Witness for C2_pass3_amended at the concrete counterexample inputs. -/
theorem C2_pass3_amended_witness :
    (attachCore c2nodes c2comment = .assertFail ∧
      ∀ p ∈ c2nodes, c2comment.bytespan.2 < p.2.1) ∨
    (∃ m sp, attachCore c2nodes c2comment = .trailing m ∧ (m, sp) ∈ c2nodes ∧
      sp.1 ≤ c2comment.bytespan.2 ∧
      ∀ p ∈ c2nodes, p.2.1 ≤ c2comment.bytespan.2 →
        (c2comment.bytespan.2 : Int) - (sp.1 : Int) ≤
          (c2comment.bytespan.2 : Int) - (p.2.1 : Int)) :=
  C2_pass3_amended c2nodes c2comment (by decide) (by decide) (by decide)

lemma matchNumber_nl (t : List Char) : matchNumber (nlC :: t) = none := by
  cases t <;> rfl

lemma matchEolCont_nl (t : List Char) : matchEolCont (nlC :: t) = none := by
  cases t <;> rfl

/-- Lexer state after lexing the closing parenthesis of the input of the C4
counterexample: the parenthesis counter is negative. -/
def c4state1 : LexState := ⟨")\n".data, "test", 1, 0, 1, -1, 0, 0, [], []⟩

/-- Counterexample to claim C4: lexing ")\n" reaches the bare newline with
the parenthesis counter at -1, which is not zero, and the lexer still
yields an end-of-line token — so end-of-line tokens are not emitted only
when all three counters are exactly zero. -/
theorem C4_counterexample :
    lexStep (initLex ")\n" "test") =
      .ok (.token ⟨"rparen", "test", 0, 1, 0, (0, 1), .nothing⟩ c4state1) ∧
    c4state1.par = -1 ∧
    ¬(c4state1.par = 0 ∧ c4state1.bracket = 0 ∧ c4state1.curl = 0) ∧
    lexStep c4state1 =
      .ok (.token ⟨"eol", "test", 0, 1, 1, (1, 2), .nothing⟩
        ⟨")\n".data, "test", 2, 2, 2, -1, 0, 0, [], []⟩) :=
  ⟨rfl, rfl, by decide, rfl⟩

/-- Claim C4 as amended: at every position where the lexer matches a bare
newline (the seven earlier patterns cannot match a newline character), the
line counter advances and the line start is reset in all cases, and an
end-of-line token is yielded exactly when none of the three nesting
counters is strictly positive; otherwise the newline is swallowed without a
token. -/
theorem C4_eol_iff_not_positive (s : LexState) (h : s.code.get? s.loc = some nlC) :
    (¬(s.par > 0 ∨ s.bracket > 0 ∨ s.curl > 0) →
      lexStep s = .ok (.token
        ⟨"eol", s.filename, s.lineStart, s.lineno, s.loc - s.lineStart,
         (s.loc, s.loc + 1), .nothing⟩
        { s with loc := s.loc + 1, lineno := s.lineno + 1, lineStart := s.loc + 1 })) ∧
    ((s.par > 0 ∨ s.bracket > 0 ∨ s.curl > 0) →
      lexStep s = .ok (.skip
        { s with loc := s.loc + 1, lineno := s.lineno + 1, lineStart := s.loc + 1 })) := by
  have hlt : s.loc < s.code.length := (List.get?_eq_some.mp h).1
  have hdrop : s.code.drop s.loc = nlC :: s.code.drop (s.loc + 1) := by
    rw [List.drop_eq_getElem_cons hlt]
    congr 1
    rcases List.get?_eq_some.mp h with ⟨h1, h2⟩
    simpa using h2
  have hge : ¬ s.loc ≥ s.code.length := not_le.mpr hlt
  constructor
  · intro hno
    have hb : (decide (s.par > 0) || decide (s.bracket > 0) || decide (s.curl > 0)) = false := by
      simp only [Bool.or_eq_false_iff, decide_eq_false_iff_not]
      exact ⟨⟨fun hp => hno (Or.inl hp), fun hp => hno (Or.inr (Or.inl hp))⟩,
             fun hp => hno (Or.inr (Or.inr hp))⟩
    simp +decide only [lexStep, if_neg hge, hdrop, matchIgnore, matchMultilineFString,
      matchFString, matchId, matchNumber_nl, matchEolCont_nl, matchEol, isIdStart]
    simp [hb]
  · intro hyes
    have hb : (decide (s.par > 0) || decide (s.bracket > 0) || decide (s.curl > 0)) = true := by
      simp only [Bool.or_eq_true, decide_eq_true_eq]
      rcases hyes with h' | h' | h'
      · exact Or.inl (Or.inl h')
      · exact Or.inl (Or.inr h')
      · exact Or.inr h'
    simp +decide only [lexStep, if_neg hge, hdrop, matchIgnore, matchMultilineFString,
      matchFString, matchId, matchNumber_nl, matchEolCont_nl, matchEol, isIdStart]
    simp [hb]

/-- Lexer state at a bare newline with no counter positive. -/
def c4stateA : LexState := ⟨"a\n".data, "test", 1, 0, 1, 0, 0, 0, [], []⟩

/-- Lexer state at a bare newline inside a parenthesized construct. -/
def c4stateB : LexState := ⟨"(\n".data, "test", 1, 0, 1, 1, 0, 0, [], []⟩

/-- Witness for C4_eol_iff_not_positive at two concrete states: an emitted
end-of-line token when no counter is positive, and a swallowed newline when
the parenthesis counter is positive. -/
theorem C4_eol_iff_not_positive_witness :
    lexStep c4stateA = .ok (.token
      ⟨"eol", "test", 0, 1, 1, (1, 2), .nothing⟩
      { c4stateA with loc := 2, lineno := 2, lineStart := 2 }) ∧
    lexStep c4stateB = .ok (.skip
      { c4stateB with loc := 2, lineno := 2, lineStart := 2 }) :=
  ⟨(C4_eol_iff_not_positive c4stateA rfl).1 (by decide),
   (C4_eol_iff_not_positive c4stateB rfl).2 (by decide)⟩

lemma accept_no (tid : String) (s : PState) (h : (s.current.tid == tid) = false) :
    accept tid s = .ok (false, s) := by
  simp [accept, h]

lemma accept_yes (tid : String) (s s' : PState) (h : (s.current.tid == tid) = true)
    (hg : getsym s = .ok s') : accept tid s = .ok (true, s') := by
  simp [accept, h, hg]

/-- Claim C5: whenever a question mark is accepted by e1 while the parser
is already inside the branches of a ternary (the in-ternary flag is set
after the left operand is parsed and the question-mark token is consumed),
the parser raises the nested-ternary ParseError; in particular parsing
"a ? b ? c : d : e" fails with exactly that error rather than producing a
nested ternary node. -/
theorem C5_nested_ternary :
    (∀ (fuel : Nat) (s : PState) (left : Nat) (s1 s2 : PState),
      e2 fuel (beginP s) = .ok (left, s1) → s1.inTernary = true →
      s1.current.tid = "questionmark" → getsym s1 = .ok s2 →
      e1 (fuel + 1) s = .error (.parseError "Nested ternary operators are not allowed."
        (getlineP s2) (nodeAt s2.arena left).lineno (nodeAt s2.arena left).colno)) ∧
    parseP 60 "a ? b ? c : d : e" "test" =
      .error (.parseError "Nested ternary operators are not allowed."
        "a ? b ? c : d : " 1 4) := by
  constructor
  · intro fuel s left s1 s2 h2 hT hq hg
    have hT2 : s2.inTernary = true := (getsym_inTernary s1 s2 hg).trans hT
    unfold e2 at h2
    simp only [e1, parseGo]
    rw [h2]
    dsimp only []
    rw [accept_no "plusassign" s1 (by rw [hq]; rfl)]
    dsimp only []
    rw [accept_no "assign" s1 (by rw [hq]; rfl)]
    dsimp only []
    rw [accept_yes "questionmark" s1 s2 (by rw [hq]; rfl) hg]
    dsimp only []
    simp [hT2]
  · rfl

/-- Parser state equal to the result of initializing the parser on
"b ? c : d : e" and entering a ternary branch (the in-ternary flag set),
representing the parse of the true branch of an enclosing ternary. -/
def c5state : PState :=
  ⟨⟨"b ? c : d : e".data, "test", 1, 0, 1, 0, 0, 0, [], []⟩,
   ⟨"id", "test", 0, 1, 0, (0, 1), .strV "b"⟩, true, [], [], []⟩

/-- Witness for the universally quantified part of C5_nested_ternary at a
concrete in-ternary state. -/
theorem C5_nested_ternary_witness :
    ∃ (left : Nat) (s1 s2 : PState),
      e2 50 (beginP c5state) = .ok (left, s1) ∧ s1.inTernary = true ∧
      s1.current.tid = "questionmark" ∧ getsym s1 = .ok s2 ∧
      e1 51 c5state = .error (.parseError "Nested ternary operators are not allowed."
        (getlineP s2) (nodeAt s2.arena left).lineno (nodeAt s2.arena left).colno) := by
  refine ⟨_, _, _, rfl, rfl, rfl, rfl, ?_⟩
  exact C5_nested_ternary.1 50 c5state _ _ _ rfl rfl rfl rfl

lemma blockExpect_yes (tid : String) (bs : Token) (s s' : PState)
    (h : (s.current.tid == tid) = true) (hg : getsym s = .ok s') :
    blockExpect tid bs s = .ok s' := by
  simp [blockExpect, accept_yes tid s s' h hg]

/-- Claim C6: when e7 parses a call (primary expression, opening
parenthesis, argument list, closing parenthesis) whose callee is anything
other than a plain identifier node, it raises the ParseError naming the
call-target requirement; in particular "(1+2)(3)" fails with that error,
and a call on a bare identifier succeeds and produces a FunctionNode. -/
theorem C6_call_requires_id :
    (∀ (fuel : Nat) (s : PState) (left : Nat) (s1 s2 : PState) (a : Nat) (s3 s4 : PState),
      e8 fuel (beginP s) = .ok (left, s1) →
      s1.current.tid = "lparen" →
      getsym s1 = .ok s2 →
      argsP fuel s2 = .ok (a, s3) →
      s3.current.tid = "rparen" →
      getsym s3 = .ok s4 →
      (∀ v, (nodeAt s4.arena left).kind ≠ .idK v) →
      e7 (fuel + 1) s = .error (.parseError "Function call must be applied to plain id"
        (getlineP s4) (nodeAt s4.arena left).lineno (nodeAt s4.arena left).colno)) ∧
    parseP 60 "(1+2)(3)" "test" =
      .error (.parseError "Function call must be applied to plain id" "(1+2)(3" 1 0) ∧
    parseShape 60 "f(3)" = some (.blockS [.funcS "f" (.argsS [.numS 3] [])]) := by
  refine ⟨?_, rfl, rfl⟩
  intro fuel s left s1 s2 a s3 s4 h8 hlp hg1 ha hrp hg2 hnid
  unfold e8 at h8
  unfold argsP at ha
  simp only [e7, parseGo]
  rw [h8]
  dsimp only []
  rw [accept_yes "lparen" s1 s2 (by rw [hlp]; rfl) hg1]
  dsimp only []
  rw [ha]
  dsimp only []
  rw [blockExpect_yes "rparen" s1.current s3 s4 (by rw [hrp]; rfl) hg2]
  dsimp only []
  cases hk : (nodeAt s4.arena left).kind <;> first | exact absurd hk (hnid _) | rfl

/-- Parser state equal to the result of initializing the parser on
"(1+2)(3)": the first token, an opening parenthesis, has been pulled. -/
def c6state : PState :=
  ⟨⟨"(1+2)(3)".data, "test", 1, 0, 1, 1, 0, 0, [], []⟩,
   ⟨"lparen", "test", 0, 1, 0, (0, 1), .nothing⟩, false, [], [], []⟩

/-- Witness for the universally quantified part of C6_call_requires_id at
the concrete state for "(1+2)(3)", whose callee is a ParenthesizedNode. -/
theorem C6_call_requires_id_witness :
    ∃ (left : Nat) (s1 s2 : PState) (a : Nat) (s3 s4 : PState),
      e8 50 (beginP c6state) = .ok (left, s1) ∧ s1.current.tid = "lparen" ∧
      getsym s1 = .ok s2 ∧ argsP 50 s2 = .ok (a, s3) ∧ s3.current.tid = "rparen" ∧
      getsym s3 = .ok s4 ∧ (∀ v, (nodeAt s4.arena left).kind ≠ .idK v) ∧
      e7 51 c6state = .error (.parseError "Function call must be applied to plain id"
        (getlineP s4) (nodeAt s4.arena left).lineno (nodeAt s4.arena left).colno) := by
  refine ⟨_, _, _, _, _, _, rfl, rfl, rfl, rfl, rfl, rfl, ?_, ?_⟩
  · intro v h
    exact NodeKind.noConfusion h
  · exact C6_call_requires_id.1 50 c6state _ _ _ _ _ _ rfl rfl rfl rfl rfl rfl
      (fun v h => NodeKind.noConfusion h)

/-- Claim C1 (code bug): formatting is not a fixed point after one pass.
The source text assigns the format string f, quote, a, two backslashes, b,
quote; its parsed value is a-backslash-b.  The fixed-style formatter emits
format-string values raw (unlike visit_StringNode it performs no
escaping), so pass one prints a single backslash before b; re-parsing
decodes that backslash-b as an escape for the backspace character, and the
second pass prints a backspace instead — the second and third outputs
differ from the first. -/
theorem C1_format_not_fixed_point :
    formatRun 80 "x = f\x27a\x5c\x5cb\x27" = some ["x = f\x27a\x5cb\x27", ""] ∧
    formatRun 80 (unlines ["x = f\x27a\x5cb\x27", ""]) = some ["x = f\x27a\x08\x27", ""] ∧
    (["x = f\x27a\x5cb\x27", ""] : List String) ≠ ["x = f\x27a\x08\x27", ""] :=
  ⟨rfl, rfl, by decide⟩

/-- Claim C3 (code bug): byte spans of composite nodes do not always
enclose the spans of their children.  Parsing "f(1)" followed by a newline
gives a root CodeBlockNode (node 0) whose recorded span is bytes 0 to 0,
because the end-of-input token is constructed with bytespan (0, 0); its
child, the FunctionNode (node 4, the only line of the block), has span
bytes 0 to 4, so the child end exceeds the parent end. -/
theorem C3_span_enclosure_violated :
    (parseP 60 "f(1)\n" "test").map Prod.fst = .ok 0 ∧
    rootLines 60 "f(1)\n" = some [4] ∧
    kindAt 60 "f(1)\n" 4 = some (.functionK "f" 3) ∧
    spanAt 60 "f(1)\n" 0 = some (0, 0) ∧
    spanAt 60 "f(1)\n" 4 = some (0, 4) ∧
    ¬((4 : Nat) ≤ 0) :=
  ⟨rfl, rfl, rfl, rfl, rfl, by decide⟩

/-- Claim C7: parsing a duplicate keyword argument succeeds, records both
pairs in order, and emits exactly one warning identifying the duplicated
key (the second warning emitted alongside it names no key). -/
theorem C7_duplicate_kwarg :
    parseShape 80 "f(a : 1, a : 2)" = some (.blockS [.funcS "f"
      (.argsS [] [(.idS "a", .numS 1), (.idS "a", .numS 2)])]) ∧
    warningsOf 80 "f(a : 1, a : 2)" = some
      ["Keyword argument \"a\" defined multiple times.",
       "This will be an error in future Meson releases."] ∧
    ((warningsOf 80 "f(a : 1, a : 2)").getD []).count
      "Keyword argument \"a\" defined multiple times." = 1 :=
  ⟨rfl, rfl, by decide⟩

/-- Claim C8: operator precedence — multiplicative operators bind tighter
than additive ones, and unary not binds tighter than and. -/
theorem C8_precedence :
    parseShape 80 "1 + 2 * 3" =
      some (.blockS [.arithS "add" (.numS 1) (.arithS "mul" (.numS 2) (.numS 3))]) ∧
    parseShape 80 "not true and false" =
      some (.blockS [.andSh (.notSh (.boolS true)) (.boolS false)]) :=
  ⟨rfl, rfl⟩

/-- Claim C10: the visitor dispatch performs no action for node classes
without a matching visit method on the fixed-style formatter — visiting a
ParenthesizedNode, a MultilineFormatStringNode or an EmptyNode (the three
classes with no visit method) leaves the formatter state unchanged — and
consequently the formatted output of assignments to a parenthesized
expression or a multiline format string contains neither the parentheses,
the inner expression, nor the literal. -/
theorem C10_unhandled_nodes_silent :
    (∀ (fuel : Nat) (arena : List NodeData) (i : Nat) (st : FmtState) (inner : Nat),
      (nodeAt arena i).kind = .parenthesizedK inner → fvisit fuel arena i st = st) ∧
    (∀ (fuel : Nat) (arena : List NodeData) (i : Nat) (st : FmtState) (v : String),
      (nodeAt arena i).kind = .mfstringK v → fvisit fuel arena i st = st) ∧
    (∀ (fuel : Nat) (arena : List NodeData) (i : Nat) (st : FmtState),
      (nodeAt arena i).kind = .emptyK → fvisit fuel arena i st = st) ∧
    formatRun 80 "x = (1 + 2)" = some ["x = ", ""] ∧
    formatRun 80 "y = f\x27\x27\x27abc\x27\x27\x27" = some ["y = ", ""] := by
  refine ⟨?_, ?_, ?_, rfl, rfl⟩
  · intro fuel arena i st inner hk
    cases fuel with
    | zero => rfl
    | succ fuel =>
      simp only [fvisit, fvisitGo]
      rw [hk]
  · intro fuel arena i st v hk
    cases fuel with
    | zero => rfl
    | succ fuel =>
      simp only [fvisit, fvisitGo]
      rw [hk]
  · intro fuel arena i st hk
    cases fuel with
    | zero => rfl
    | succ fuel =>
      simp only [fvisit, fvisitGo]
      rw [hk]

/-- Arena with one ParenthesizedNode (referring to node 1) and one
MultilineFormatStringNode, for the C10 witness. -/
def c10arena : List NodeData :=
  [mkAt 1 0 "test" (.parenthesizedK 1), mkAt 1 0 "test" (.mfstringK "abc"),
   mkAt 1 0 "test" .emptyK]

/-- Witness for the universally quantified parts of
C10_unhandled_nodes_silent at a concrete arena and formatter state. -/
theorem C10_unhandled_nodes_silent_witness :
    fvisit 5 c10arena 0 initFmt = initFmt ∧ fvisit 5 c10arena 1 initFmt = initFmt ∧
    fvisit 5 c10arena 2 initFmt = initFmt :=
  ⟨C10_unhandled_nodes_silent.1 5 c10arena 0 initFmt 1 rfl,
   C10_unhandled_nodes_silent.2.1 5 c10arena 1 initFmt "abc" rfl,
   C10_unhandled_nodes_silent.2.2.1 5 c10arena 2 initFmt rfl⟩
